import Mathlib

/-!
Verification of the data-normalization core of `perf-tests/scripts/generate-charts.py`
(repository `perf-test-tempo-monolithic`).

The embedded components are:
* the Result Loader (`load_test_results`, source lines 93-114),
* the Metadata Resolver (`load_report_metadata` lines 62-72, `get_report_name` lines 75-90),
* the Summary Table Builder (`results_to_dataframe`, lines 117-144),
* the Time-Series Aligner (`extract_timeseries_data`, lines 147-199).

Modelling conventions:
* Python numbers are embedded as `ℚ` (the claims about arithmetic are stated "within
  floating-point tolerance", so the exact-rational idealization is used); timestamps are `ℤ`.
* JSON objects are embedded as structures whose fields are `Option`-valued: `none` models an
  absent key.  `r.get(k, d)` becomes `Option.getD`.
* Python `dict` built by a comprehension is an association list in first-insertion key order
  where inserting an existing key overwrites its value in place (CPython semantics);
  `item['timestamp']` / `item['value']` on an object lacking the key raises `KeyError`,
  modelled by `Except Unit` (`.error ()`).
* `sys.exit(1)` in the loader is modelled by `Except LoadError`.
* Python `sorted` and the two-key `DataFrame.sort_values(['load_name','timestamp'])`
  (which pandas implements with the stable `np.lexsort`) are modelled by the stable
  `stableSortBy` (a stable sort is functionally determined by the comparison and the
  input order, so the choice of stable algorithm is immaterial).
* The single-key `DataFrame.sort_values('mb_per_sec')` on line 143 is different: pandas'
  default sort kind is `'quicksort'` (numpy introsort), and the pandas documentation
  states that only `'mergesort'`/`'stable'` are stable.  The tie order of that call is
  therefore an unspecified numpy implementation detail (and numpy's introsort demonstrably
  reorders runs of more than 16 equal keys).  That call is embedded by its library
  contract: the relation `SummaryOutcome`, which fixes the output to be a permutation of
  the mapped rows that is non-decreasing in `mb_per_sec`, and says nothing about tie order.
* `datetime.fromtimestamp(ts)` (line 175) is a presentation-only injective function of the
  `timestamp` field and is not modelled as a separate field.
-/

namespace PerfCharts

instance {ε α : Type} [DecidableEq ε] [DecidableEq α] : DecidableEq (Except ε α) := fun a b =>
  match a, b with
  | .ok x, .ok y => if h : x = y then .isTrue (by rw [h]) else .isFalse (by simp [h])
  | .error x, .error y => if h : x = y then .isTrue (by rw [h]) else .isFalse (by simp [h])
  | .ok _, .error _ => .isFalse (by simp)
  | .error _, .ok _ => .isFalse (by simp)

/-- Python's `<` on strings (and on same-directory `Path`s): strict lexicographic
comparison of the code-point sequences.  This agrees with Lean's `String` order
(`pyStrLt_iff` below) but is written as an executable recursion on the character
lists. -/
def charListLt : List Char → List Char → Bool
  | [], [] => false
  | [], _ :: _ => true
  | _ :: _, [] => false
  | a :: as, b :: bs => if a < b then true else if b < a then false else charListLt as bs

/-- Python's `<` on strings. -/
def pyStrLt (a b : String) : Bool := charListLt a.data b.data

/-- Python's `<=` on strings: `¬ (b < a)` of the total order. -/
def pyStrLe (a b : String) : Bool := !pyStrLt b a

/-- Insert `a` into `l` before the first element `b` with `le a b = true`.  An element
equal to `a` (under the total preorder `le`) has `le a b = true`, so `a` lands before
it: the element inserted first keeps the earlier position. -/
def insertLe {α : Type} (le : α → α → Bool) (a : α) : List α → List α
  | [] => [a]
  | b :: l => if le a b then a :: b :: l else b :: insertLe le a l

/-- Stable sort by the Bool comparison `le` (insertion sort).  A stable sort is
functionally determined by `le` and the input order, so this is the embedding of every
stable sort of the source: Python's `sorted` (Timsort) and the multi-key
`DataFrame.sort_values` (`np.lexsort`). -/
def stableSortBy {α : Type} (le : α → α → Bool) : List α → List α
  | [] => []
  | a :: l => insertLe le a (stableSortBy le l)

/-- `metrics.throughput` object of a raw result; every key may be absent. -/
structure Throughput where
  bytes_per_second : Option ℚ
  spans_per_second : Option ℚ
deriving DecidableEq

/-- `metrics.query_latencies` object of a raw result. -/
structure QueryLatencies where
  p50_seconds : Option ℚ
  p90_seconds : Option ℚ
  p99_seconds : Option ℚ
deriving DecidableEq

/-- `metrics.resources` object of a raw result. -/
structure Resources where
  avg_cpu_cores : Option ℚ
  max_memory_gb : Option ℚ
deriving DecidableEq

/-- `metrics.errors` object of a raw result. -/
structure MetricErrors where
  error_rate_percent : Option ℚ
  dropped_spans_per_second : Option ℚ
deriving DecidableEq

/-- `metrics` object of a raw result; every sub-object may be absent. -/
structure Metrics where
  throughput : Option Throughput
  query_latencies : Option QueryLatencies
  resources : Option Resources
  errors : Option MetricErrors
deriving DecidableEq

/-- The empty JSON object `{}` used as the default of `r.get('metrics', {})`. -/
def Metrics.empty : Metrics := ⟨none, none, none, none⟩

/-- The empty `{}` default of `.get('throughput', {})`. -/
def Throughput.empty : Throughput := ⟨none, none⟩

/-- The empty `{}` default of `.get('query_latencies', {})`. -/
def QueryLatencies.empty : QueryLatencies := ⟨none, none, none⟩

/-- The empty `{}` default of `.get('resources', {})`. -/
def Resources.empty : Resources := ⟨none, none⟩

/-- The empty `{}` default of `.get('errors', {})`. -/
def MetricErrors.empty : MetricErrors := ⟨none, none⟩

/-- `config` object of a raw result. -/
structure Config where
  mb_per_sec : Option ℚ
deriving DecidableEq

/-- The empty `{}` default of `r.get('config', {})`. -/
def Config.empty : Config := ⟨none⟩

/-- One `{timestamp: ..., value: ...}` sample object of a time-series stream.
Either key may be absent from the JSON object (accessing it then raises `KeyError`). -/
structure Sample where
  timestamp : Option ℤ
  value : Option ℚ
deriving DecidableEq

/-- The `timeseries` object of a raw result: metric name → stream of samples.
`none` models an absent key (so `timeseries.get(name, [])` yields `[]`). -/
structure Timeseries where
  cpu_cores : Option (List Sample)
  memory_gb : Option (List Sample)
  spans_per_second : Option (List Sample)
  bytes_per_second : Option (List Sample)
  p50_latency_seconds : Option (List Sample)
  p90_latency_seconds : Option (List Sample)
  p99_latency_seconds : Option (List Sample)
  query_failures_per_second : Option (List Sample)
  dropped_spans_per_second : Option (List Sample)
deriving DecidableEq

/-- One loaded raw-result JSON record (one per load).  Any field may be absent. -/
structure RawResult where
  load_name : Option String
  config : Option Config
  metrics : Option Metrics
  timeseries : Option Timeseries
deriving DecidableEq

/-! ### Result Loader (`load_test_results`, lines 93-114) -/

/-- A file of the `raw/` directory after the JSON-parse attempt: its name and, when
`json.load` succeeds, the parsed record (`none` models `json.JSONDecodeError`). -/
structure RawFile where
  name : String
  parsed : Option RawResult
deriving DecidableEq

/-- The two fatal conditions of the loader (each is a `sys.exit(1)` in the source). -/
inductive LoadError where
  | missingRawDir : LoadError
  | noValidResults : LoadError
deriving DecidableEq

/-- Filename comparison used by `sorted(raw_dir.glob('*.json'))`. -/
def fileNameLe (a b : RawFile) : Bool := pyStrLe a.name b.name

/-- `load_test_results` (lines 93-114).  The input models the `raw/` subdirectory:
`none` when it does not exist, otherwise the list of its `*.json` files in arbitrary
directory order, each with its parse outcome.  Files are visited in filename-sorted
order; a file whose parse fails is warned about and skipped (`filterMap`); if nothing
parses the function exits fatally. -/
def load_test_results (rawDir : Option (List RawFile)) : Except LoadError (List RawResult) :=
  match rawDir with
  | none => .error .missingRawDir
  | some files =>
    let results := (stableSortBy fileNameLe files).filterMap (fun f => f.parsed)
    if results.isEmpty then .error .noValidResults else .ok results

/-! ### Metadata Resolver (`load_report_metadata` lines 62-72, `get_report_name` 75-90) -/

/-- `report_metadata.cluster` object. -/
structure ClusterInfo where
  name : Option String
deriving DecidableEq

/-- The empty `{}` default of `metadata.get('cluster', {})`. -/
def ClusterInfo.empty : ClusterInfo := ⟨none⟩

/-- `report_metadata` object of a report file. -/
structure ReportMetadata where
  cluster : Option ClusterInfo
  generated_at : Option String
deriving DecidableEq

/-- The empty `{}` returned when no report file exists or it cannot be parsed. -/
def ReportMetadata.empty : ReportMetadata := ⟨none, none⟩

/-- Top-level object of a parsed report file; the `report_metadata` key may be absent. -/
structure ReportJson where
  report_metadata : Option ReportMetadata
deriving DecidableEq

/-- A `report-*.json` file: its name and its parse outcome (`none` models
`json.JSONDecodeError` or `IOError`, both caught on lines 70-71). -/
structure ReportFile where
  name : String
  parsed : Option ReportJson
deriving DecidableEq

/-- Descending filename comparison used by `sorted(..., reverse=True)` (line 64). -/
def fileNameGe (a b : ReportFile) : Bool := pyStrLe b.name a.name

/-- What `load_report_metadata` extracts from the selected report file:
`report.get('report_metadata', {})` on success, `{}` on a parse/read failure. -/
def reportMetadataOf (f : ReportFile) : ReportMetadata :=
  match f.parsed with
  | none => ReportMetadata.empty
  | some j => j.report_metadata.getD ReportMetadata.empty

/-- `load_report_metadata` (lines 62-72): pick the first file of the reverse-sorted
`report-*.json` list (i.e. the greatest filename) and extract its metadata;
`{}` when there is no report file. -/
def load_report_metadata (reportFiles : List ReportFile) : ReportMetadata :=
  match (stableSortBy fileNameGe reportFiles).head? with
  | none => ReportMetadata.empty
  | some f => reportMetadataOf f

/-- Python `str.split(sep)` on an explicit separator, over the character list:
`''.split('/') == ['']`, `'a/b'.split('/') == ['a','b']`.  The result is never empty. -/
def pySplitChar (sep : Char) : List Char → List (List Char)
  | [] => [[]]
  | c :: rest =>
    let tail := pySplitChar sep rest
    if c = sep then [] :: tail
    else
      match tail with
      | [] => [[c]]
      | h :: t => (c :: h) :: t

/-- Python `str.split(sep)` producing strings. -/
def pySplit (s : String) (sep : Char) : List String :=
  (pySplitChar sep s.data).map (fun cs => String.mk cs)

/-- `get_report_name` (lines 75-90): the cluster name's part before the first `/` when the
cluster name is a non-empty string, else a label from `generated_at` truncated to its
first 10 characters, else the fixed default label. -/
def get_report_name (metadata : ReportMetadata) : String :=
  let cluster_info := metadata.cluster.getD ClusterInfo.empty
  let cluster_name := cluster_info.name.getD ""
  if cluster_name ≠ "" then
    match pySplit cluster_name '/' with
    | [] => cluster_name
    | p :: _ => p
  else
    let generated_at := metadata.generated_at.getD ""
    if generated_at ≠ "" then "Report " ++ generated_at.take 10
    else "Tempo Performance Test"

/-! ### Summary Table Builder (`results_to_dataframe`, lines 117-144) -/

/-- One row of the summary table (lines 125-138). -/
structure SummaryRow where
  load_name : String
  mb_per_sec : ℚ
  mb_per_sec_actual : ℚ
  bytes_per_sec : ℚ
  p50_ms : ℚ
  p90_ms : ℚ
  p99_ms : ℚ
  cpu_cores : ℚ
  memory_gb : ℚ
  spans_per_sec : ℚ
  error_rate : ℚ
  dropped_spans : ℚ
deriving DecidableEq

/-- The row built for one record (lines 121-138).  Every nested access translates a
`r.get(..., {}).get(..., 0)` chain; `if bytes_per_sec else 0` tests Python float
truthiness, i.e. `bytes_per_sec ≠ 0`. -/
def summaryRow (r : RawResult) : SummaryRow :=
  let metrics := r.metrics.getD Metrics.empty
  let bytes_per_sec := ((metrics.throughput.getD Throughput.empty).bytes_per_second).getD 0
  let mb_per_sec_actual := if bytes_per_sec ≠ 0 then bytes_per_sec / (1024 * 1024) else 0
  { load_name := r.load_name.getD "unknown"
    mb_per_sec := ((r.config.getD Config.empty).mb_per_sec).getD 0
    mb_per_sec_actual := mb_per_sec_actual
    bytes_per_sec := bytes_per_sec
    p50_ms := ((metrics.query_latencies.getD QueryLatencies.empty).p50_seconds).getD 0 * 1000
    p90_ms := ((metrics.query_latencies.getD QueryLatencies.empty).p90_seconds).getD 0 * 1000
    p99_ms := ((metrics.query_latencies.getD QueryLatencies.empty).p99_seconds).getD 0 * 1000
    cpu_cores := ((metrics.resources.getD Resources.empty).avg_cpu_cores).getD 0
    memory_gb := ((metrics.resources.getD Resources.empty).max_memory_gb).getD 0
    spans_per_sec := ((metrics.throughput.getD Throughput.empty).spans_per_second).getD 0
    error_rate := ((metrics.errors.getD MetricErrors.empty).error_rate_percent).getD 0
    dropped_spans := ((metrics.errors.getD MetricErrors.empty).dropped_spans_per_second).getD 0 }

/-- The row list before sorting (the loop of lines 119-139). -/
def summaryRows (results : List RawResult) : List SummaryRow :=
  results.map summaryRow

/-- Row comparison by the sort key of line 143. -/
def rateLe (a b : SummaryRow) : Bool := decide (a.mb_per_sec ≤ b.mb_per_sec)

/-- `df.sort_values('mb_per_sec')` (line 143), embedded by its library contract.
pandas sorts with the default `kind='quicksort'` (numpy introsort); the pandas
documentation guarantees the result is ordered by the key column but only the
`'mergesort'`/`'stable'` kinds are stable, so the order of rows with equal keys is an
unspecified implementation detail of numpy (whose introsort does reorder runs of more
than 16 equal keys).  `SummaryOutcome results out` therefore holds exactly for the lists
the library contract permits `results_to_dataframe(results)` to return: permutations of
the mapped rows that are non-decreasing in `mb_per_sec`. -/
def SummaryOutcome (results : List RawResult) (out : List SummaryRow) : Prop :=
  out.Perm (summaryRows results) ∧
    List.Sorted (fun a b => a.mb_per_sec ≤ b.mb_per_sec) out

instance (results : List RawResult) (out : List SummaryRow) :
    Decidable (SummaryOutcome results out) :=
  inferInstanceAs (Decidable (And _ _))

/-! ### Time-Series Aligner (`extract_timeseries_data`, lines 147-199) -/

/-- The timestamp → value mapping built by one dict comprehension of lines 160-168,
as an association list in first-insertion key order. -/
abbrev TsDict := List (ℤ × ℚ)

/-- CPython dict insertion: an existing key keeps its position (the association list is
updated at the key's occurrence) but its value is overwritten; a new key is appended at
the end. -/
def dictInsert : TsDict → ℤ → ℚ → TsDict
  | [], k, v => [(k, v)]
  | p :: d, k, v => if p.1 == k then (k, v) :: d else p :: dictInsert d k v

/-- Python `d.get(k, dflt)`. -/
def dictGet (d : TsDict) (k : ℤ) (dflt : ℚ) : ℚ :=
  match d.find? (fun p => p.1 == k) with
  | some p => p.2
  | none => dflt

/-- Python `d.keys()` (insertion order, no duplicates by construction). -/
def dictKeys (d : TsDict) : List ℤ := d.map Prod.fst

/-- `item['timestamp']`, `item['value']` of one comprehension step: `KeyError`
(modelled `.error ()`) when either key is absent. -/
def sampleKV (s : Sample) : Except Unit (ℤ × ℚ) :=
  match s.timestamp, s.value with
  | some t, some v => .ok (t, v)
  | _, _ => .error ()

/-- One step of a dict comprehension of lines 160-168. -/
def dictStep (d : TsDict) (s : Sample) : Except Unit TsDict := do
  let kv ← sampleKV s
  pure (dictInsert d kv.1 kv.2)

/-- One whole dict comprehension `{item['timestamp']: item['value'] for item in stream}`. -/
def buildDict (stream : List Sample) : Except Unit TsDict :=
  stream.foldlM dictStep []

/-- `timeseries.get(name, [])`. -/
def streamOf (o : Option (List Sample)) : List Sample := o.getD []

/-- Python truthiness of the `timeseries` dict (line 156, `not timeseries`):
true iff it has at least one key.  (A key present with JSON `null` is not
distinguishable from an absent key in this typed model.) -/
def tsTruthy (ts : Timeseries) : Bool :=
  ts.cpu_cores.isSome || ts.memory_gb.isSome || ts.spans_per_second.isSome ||
  ts.bytes_per_second.isSome || ts.p50_latency_seconds.isSome ||
  ts.p90_latency_seconds.isSome || ts.p99_latency_seconds.isSome ||
  ts.query_failures_per_second.isSome || ts.dropped_spans_per_second.isSome

/-- Python truthiness of `timeseries.get('cpu_cores')` (line 156): a present,
non-empty list. -/
def cpuTruthy (o : Option (List Sample)) : Bool :=
  match o with
  | some (_ :: _) => true
  | _ => false

/-- The guard of line 156: `not timeseries or not timeseries.get('cpu_cores')`,
with `r.get('timeseries', {})` being the falsy `{}` when the field is absent. -/
def skipsTimeseries (r : RawResult) : Bool :=
  match r.timeseries with
  | none => true
  | some ts => !tsTruthy ts || !cpuTruthy ts.cpu_cores

/-- One output row of lines 172-185 (the `datetime` column, an injective function of
`timestamp`, is omitted). -/
structure TSRow where
  load_name : String
  timestamp : ℤ
  cpu_cores : ℚ
  memory_gb : ℚ
  spans_per_sec : ℚ
  bytes_per_sec : ℚ
  p50_ms : ℚ
  p90_ms : ℚ
  p99_ms : ℚ
  query_failures : ℚ
  dropped_spans : ℚ
deriving DecidableEq

/-- The row appended for reference timestamp `t` (lines 172-185). -/
def mkTSRow (ln : String) (t : ℤ)
    (cpu mem spans bytes p50 p90 p99 fails dropped : TsDict) : TSRow :=
  { load_name := ln
    timestamp := t
    cpu_cores := dictGet cpu t 0
    memory_gb := dictGet mem t 0
    spans_per_sec := dictGet spans t 0
    bytes_per_sec := dictGet bytes t 0
    p50_ms := dictGet p50 t 0 * 1000
    p90_ms := dictGet p90 t 0 * 1000
    p99_ms := dictGet p99 t 0 * 1000
    query_failures := dictGet fails t 0
    dropped_spans := dictGet dropped t 0 }

/-- Ascending comparison for `sorted(cpu_data.keys())` (line 171). -/
def intLe (a b : ℤ) : Bool := decide (a ≤ b)

/-- The rows contributed by one record (the body of the loop of lines 151-185):
`[]` if the record is skipped by the line-156 guard, otherwise one row per key of the
`cpu_cores` dict, in ascending timestamp order; `.error ()` if any sample of any of
the nine streams lacks a `timestamp` or `value` key. -/
def recordRows (r : RawResult) : Except Unit (List TSRow) :=
  match r.timeseries with
  | none => .ok []
  | some ts =>
    if !tsTruthy ts || !cpuTruthy ts.cpu_cores then .ok []
    else do
      let ln := r.load_name.getD "unknown"
      let cpu ← buildDict (streamOf ts.cpu_cores)
      let mem ← buildDict (streamOf ts.memory_gb)
      let spans ← buildDict (streamOf ts.spans_per_second)
      let bytes ← buildDict (streamOf ts.bytes_per_second)
      let p50 ← buildDict (streamOf ts.p50_latency_seconds)
      let p90 ← buildDict (streamOf ts.p90_latency_seconds)
      let p99 ← buildDict (streamOf ts.p99_latency_seconds)
      let fails ← buildDict (streamOf ts.query_failures_per_second)
      let dropped ← buildDict (streamOf ts.dropped_spans_per_second)
      .ok ((stableSortBy intLe (dictKeys cpu)).map
        (fun t => mkTSRow ln t cpu mem spans bytes p50 p90 p99 fails dropped))

/-- A summary row with a per-load relative minute index (the column added on
lines 194-197). -/
structure TimeSeriesPoint extends TSRow where
  minute : ℤ
deriving DecidableEq

/-- Lexicographic `(load_name, timestamp)` comparison of line 191 (multi-key
`sort_values`, which pandas performs with the stable `np.lexsort`). -/
def rowLe (a b : TSRow) : Bool :=
  pyStrLt a.load_name b.load_name ||
    (a.load_name == b.load_name && decide (a.timestamp ≤ b.timestamp))

/-- Minimum of an integer list (`pandas.Series.min()`); the `[]` case never arises in
`addMinutes` because the filtered list always contains the row itself. -/
def listMinD : List ℤ → ℤ
  | [] => 0
  | x :: xs => xs.foldl (fun a b => min a b) x

/-- `df.loc[mask, 'timestamp'].min()` for the rows of one load (line 196). -/
def minTsFor (rows : List TSRow) (load : String) : ℤ :=
  listMinD ((rows.filter (fun q => q.load_name == load)).map (fun q => q.timestamp))

/-- The per-load relative minute column (lines 194-197):
`((timestamp - min_ts) / 60).astype(int) + 1`.  The numpy cast truncates toward zero;
since `timestamp ≥ min_ts` for every row of the load, truncation agrees with floor,
i.e. with `Int` division by the positive constant 60. -/
def addMinutes (rows : List TSRow) : List TimeSeriesPoint :=
  rows.map (fun q =>
    { toTSRow := q
      minute := (q.timestamp - minTsFor rows q.load_name) / 60 + 1 })

/-- One step of the row-collection loop of lines 151-185: append the rows the record
contributes (or abort on its `KeyError`). -/
def tsFoldStep (acc : List TSRow) (r : RawResult) : Except Unit (List TSRow) := do
  let l ← recordRows r
  pure (acc ++ l)

/-- `extract_timeseries_data` (lines 147-199): concatenate every record's rows (a
`KeyError` in any record aborts the whole batch), sort by `(load_name, timestamp)`,
then add the per-load `minute` column.  (For the empty row set the source returns an
empty frame early on line 188; both branches yield the empty output here.) -/
def extract_timeseries_data (results : List RawResult) :
    Except Unit (List TimeSeriesPoint) := do
  let rows ← results.foldlM tsFoldStep ([] : List TSRow)
  pure (addMinutes (stableSortBy rowLe rows))

/-- The same minimum over the finished points (timestamps and load names are the same
as before `addMinutes`, which only attaches the `minute` field). -/
def minTsForPoints (pts : List TimeSeriesPoint) (load : String) : ℤ :=
  listMinD ((pts.filter (fun q => q.load_name == load)).map (fun q => q.timestamp))

/-! ### Spec-side derived notions used by the claim statements -/

/-- The last sample of `stream` carrying exactly timestamp `t` (the sample whose value
a Python dict comprehension retains for key `t`). -/
def lastSampleAt (stream : List Sample) (t : ℤ) : Option Sample :=
  stream.reverse.find? (fun s => s.timestamp == some t)

/-- The value that sample carries, when it exists. -/
def lastValueAt (stream : List Sample) (t : ℤ) : Option ℚ :=
  (lastSampleAt stream t).bind (fun s => s.value)

/-- The defaulted stream value used by the aligned rows: the last sample's value at
`t`, or 0 when the stream has no sample at `t`. -/
def valueAtD (stream : List Sample) (t : ℤ) : ℚ :=
  (lastValueAt stream t).getD 0

/-- A sample object lacking the `timestamp` or the `value` key. -/
def sampleMalformed (s : Sample) : Bool := s.timestamp.isNone || s.value.isNone

/-- The nine tracked streams of a record, each defaulted to `[]` when absent. -/
def allStreams (r : RawResult) : List (List Sample) :=
  match r.timeseries with
  | none => [[], [], [], [], [], [], [], [], []]
  | some ts =>
    [streamOf ts.cpu_cores, streamOf ts.memory_gb, streamOf ts.spans_per_second,
     streamOf ts.bytes_per_second, streamOf ts.p50_latency_seconds,
     streamOf ts.p90_latency_seconds, streamOf ts.p99_latency_seconds,
     streamOf ts.query_failures_per_second, streamOf ts.dropped_spans_per_second]

/-- Every sample of every tracked stream of `r` has both keys. -/
def recordWF (r : RawResult) : Bool :=
  (allStreams r).all (fun l => l.all (fun s => !sampleMalformed s))

/-- The `cpu_cores` stream of a record (the reference stream), `[]` when absent. -/
def cpuStream (r : RawResult) : List Sample :=
  match r.timeseries with
  | none => []
  | some ts => streamOf ts.cpu_cores

/-- The `memory_gb` stream of a record, `[]` when absent. -/
def memStream (r : RawResult) : List Sample :=
  match r.timeseries with
  | none => []
  | some ts => streamOf ts.memory_gb

/-- The `spans_per_second` stream of a record, `[]` when absent. -/
def spansStream (r : RawResult) : List Sample :=
  match r.timeseries with
  | none => []
  | some ts => streamOf ts.spans_per_second

/-- The `bytes_per_second` stream of a record, `[]` when absent. -/
def bytesStream (r : RawResult) : List Sample :=
  match r.timeseries with
  | none => []
  | some ts => streamOf ts.bytes_per_second

/-- The `p50_latency_seconds` stream of a record, `[]` when absent. -/
def p50Stream (r : RawResult) : List Sample :=
  match r.timeseries with
  | none => []
  | some ts => streamOf ts.p50_latency_seconds

/-- The `p90_latency_seconds` stream of a record, `[]` when absent. -/
def p90Stream (r : RawResult) : List Sample :=
  match r.timeseries with
  | none => []
  | some ts => streamOf ts.p90_latency_seconds

/-- The `p99_latency_seconds` stream of a record, `[]` when absent. -/
def p99Stream (r : RawResult) : List Sample :=
  match r.timeseries with
  | none => []
  | some ts => streamOf ts.p99_latency_seconds

/-- The `query_failures_per_second` stream of a record, `[]` when absent. -/
def failsStream (r : RawResult) : List Sample :=
  match r.timeseries with
  | none => []
  | some ts => streamOf ts.query_failures_per_second

/-- The `dropped_spans_per_second` stream of a record, `[]` when absent. -/
def droppedStream (r : RawResult) : List Sample :=
  match r.timeseries with
  | none => []
  | some ts => streamOf ts.dropped_spans_per_second

/-- The number of time-series rows one record contributes to a successful batch. -/
def contribLen (r : RawResult) : ℕ :=
  ((recordRows r).toOption.getD []).length

/-! ### Source paths of the summary fields (spec-side accessors) -/

/-- `config.mb_per_sec` of a record, when every path segment is present. -/
def srcMbPerSec (r : RawResult) : Option ℚ :=
  r.config.bind (fun c => c.mb_per_sec)

/-- `metrics.throughput.bytes_per_second` of a record. -/
def srcBytesPerSecond (r : RawResult) : Option ℚ :=
  (r.metrics.bind (fun m => m.throughput)).bind (fun t => t.bytes_per_second)

/-- `metrics.throughput.spans_per_second` of a record. -/
def srcSpansPerSecond (r : RawResult) : Option ℚ :=
  (r.metrics.bind (fun m => m.throughput)).bind (fun t => t.spans_per_second)

/-- `metrics.query_latencies.p50_seconds` of a record. -/
def srcP50Seconds (r : RawResult) : Option ℚ :=
  (r.metrics.bind (fun m => m.query_latencies)).bind (fun q => q.p50_seconds)

/-- `metrics.query_latencies.p90_seconds` of a record. -/
def srcP90Seconds (r : RawResult) : Option ℚ :=
  (r.metrics.bind (fun m => m.query_latencies)).bind (fun q => q.p90_seconds)

/-- `metrics.query_latencies.p99_seconds` of a record. -/
def srcP99Seconds (r : RawResult) : Option ℚ :=
  (r.metrics.bind (fun m => m.query_latencies)).bind (fun q => q.p99_seconds)

/-- `metrics.resources.avg_cpu_cores` of a record. -/
def srcAvgCpuCores (r : RawResult) : Option ℚ :=
  (r.metrics.bind (fun m => m.resources)).bind (fun x => x.avg_cpu_cores)

/-- `metrics.resources.max_memory_gb` of a record. -/
def srcMaxMemoryGb (r : RawResult) : Option ℚ :=
  (r.metrics.bind (fun m => m.resources)).bind (fun x => x.max_memory_gb)

/-- `metrics.errors.error_rate_percent` of a record. -/
def srcErrorRatePercent (r : RawResult) : Option ℚ :=
  (r.metrics.bind (fun m => m.errors)).bind (fun x => x.error_rate_percent)

/-- `metrics.errors.dropped_spans_per_second` of a record. -/
def srcDroppedSpans (r : RawResult) : Option ℚ :=
  (r.metrics.bind (fun m => m.errors)).bind (fun x => x.dropped_spans_per_second)

/-- `report_metadata.cluster.name` with the code's string defaults (lines 77-78). -/
def clusterNameOf (md : ReportMetadata) : String :=
  (md.cluster.getD ClusterInfo.empty).name.getD ""

/-- `report_metadata.generated_at` with the code's string default (line 86). -/
def generatedAtOf (md : ReportMetadata) : String :=
  md.generated_at.getD ""

/-! ### Concrete instances used to exercise the theorems -/

/-- A record with the given load name whose target rate is 5 MB/s and which carries no
metrics and no time series. -/
def rateFiveRec (nm : String) : RawResult :=
  { load_name := some nm, config := some ⟨some 5⟩, metrics := none, timeseries := none }

/-- Eighteen records that all share the target rate `mb_per_sec = 5`. -/
def results18 : List RawResult :=
  [rateFiveRec "L00", rateFiveRec "L01", rateFiveRec "L02", rateFiveRec "L03",
   rateFiveRec "L04", rateFiveRec "L05", rateFiveRec "L06", rateFiveRec "L07",
   rateFiveRec "L08", rateFiveRec "L09", rateFiveRec "L10", rateFiveRec "L11",
   rateFiveRec "L12", rateFiveRec "L13", rateFiveRec "L14", rateFiveRec "L15",
   rateFiveRec "L16", rateFiveRec "L17"]

/-- `results18` reordered by the argsort permutation
`[0,15,14,13,12,11,10,9,8,7,6,5,4,3,2,1,16,17]` — the index order numpy's introsort
(`np.argsort(..., kind='quicksort')`) actually produces for 18 equal keys. -/
def permuted18 : List RawResult :=
  [rateFiveRec "L00", rateFiveRec "L15", rateFiveRec "L14", rateFiveRec "L13",
   rateFiveRec "L12", rateFiveRec "L11", rateFiveRec "L10", rateFiveRec "L09",
   rateFiveRec "L08", rateFiveRec "L07", rateFiveRec "L06", rateFiveRec "L05",
   rateFiveRec "L04", rateFiveRec "L03", rateFiveRec "L02", rateFiveRec "L01",
   rateFiveRec "L16", rateFiveRec "L17"]

/-- The summary rows in that reordered sequence.  It is one of the outputs the
`sort_values` contract permits on `results18`: all keys are equal, so every permutation
of the rows is non-decreasing in the key — and it is the one the pandas call actually
returns. -/
def out18 : List SummaryRow :=
  summaryRows permuted18

/-- A record with a well-formed two-sample `cpu_cores` stream, used to exercise the
time-series theorems. -/
def recW : RawResult :=
  { load_name := some "w"
    config := none
    metrics := none
    timeseries := some
      { cpu_cores := some [⟨some 100, some 2⟩, ⟨some 161, some 3⟩]
        memory_gb := none
        spans_per_second := none
        bytes_per_second := none
        p50_latency_seconds := some [⟨some 100, some (1/100)⟩]
        p90_latency_seconds := none
        p99_latency_seconds := none
        query_failures_per_second := none
        dropped_spans_per_second := none } }

/-- The aligned points `recW` produces (two rows: minutes 1 and 2). -/
def ptsW : List TimeSeriesPoint :=
  (extract_timeseries_data [recW]).toOption.getD []

/-- A record whose `cpu_cores` stream is non-empty but whose `memory_gb` stream contains
a sample lacking the `value` key. -/
def recBad : RawResult :=
  { load_name := some "bad"
    config := none
    metrics := none
    timeseries := some
      { cpu_cores := some [⟨some 100, some 1⟩]
        memory_gb := some [⟨some 100, none⟩]
        spans_per_second := none
        bytes_per_second := none
        p50_latency_seconds := none
        p90_latency_seconds := none
        p99_latency_seconds := none
        query_failures_per_second := none
        dropped_spans_per_second := none } }

/-- A report metadata object whose cluster name contains a path separator. -/
def mdW : ReportMetadata := ⟨some ⟨some "tempo-perf/c1"⟩, none⟩

/-- Two report files: the later one (greatest filename) fails to parse. -/
def reportFilesW : List ReportFile :=
  [⟨"report-2.json", none⟩, ⟨"report-1.json", some ⟨some mdW⟩⟩]

/-! ## Lemmas: the stable sort -/

theorem insertLe_perm {α : Type} (le : α → α → Bool) (a : α) (l : List α) :
    (insertLe le a l).Perm (a :: l) := by
  induction l with
  | nil => exact List.Perm.refl _
  | cons b t ih =>
    by_cases h : le a b = true
    · simp [insertLe, h]
    · simp only [insertLe, h, if_false]
      exact (ih.cons b).trans (List.Perm.swap a b t)

theorem stableSortBy_perm {α : Type} (le : α → α → Bool) (l : List α) :
    (stableSortBy le l).Perm l := by
  induction l with
  | nil => exact List.Perm.refl _
  | cons a t ih => exact (insertLe_perm le a (stableSortBy le t)).trans (ih.cons a)

theorem insertLe_pairwise {α : Type} {le : α → α → Bool}
    (htot : ∀ x y, le x y = true ∨ le y x = true)
    (htrans : ∀ x y z, le x y = true → le y z = true → le x z = true)
    (a : α) {l : List α} (hl : List.Pairwise (fun x y => le x y = true) l) :
    List.Pairwise (fun x y => le x y = true) (insertLe le a l) := by
  induction l with
  | nil => exact List.pairwise_singleton _ a
  | cons b t ih =>
    rcases List.pairwise_cons.mp hl with ⟨hb, ht⟩
    by_cases h : le a b = true
    · simp only [insertLe, h, if_true]
      exact List.pairwise_cons.mpr
        ⟨fun x hx => by
          rcases List.mem_cons.mp hx with rfl | hx
          · exact h
          · exact htrans a b x h (hb x hx), hl⟩
    · simp only [insertLe, h, if_false]
      refine List.pairwise_cons.mpr ⟨fun x hx => ?_, ih ht⟩
      rcases List.mem_cons.mp ((insertLe_perm le a t).mem_iff.mp hx) with rfl | hx
      · rcases htot x b with hab | hba
        · exact absurd hab h
        · exact hba
      · exact hb x hx

theorem stableSortBy_pairwise {α : Type} {le : α → α → Bool}
    (htot : ∀ x y, le x y = true ∨ le y x = true)
    (htrans : ∀ x y z, le x y = true → le y z = true → le x z = true)
    (l : List α) :
    List.Pairwise (fun x y => le x y = true) (stableSortBy le l) := by
  induction l with
  | nil => exact List.Pairwise.nil
  | cons a t ih => exact insertLe_pairwise htot htrans a ih

/-! ## Lemmas: the Python string order -/

theorem charListLt_iff (x y : List Char) :
    charListLt x y = true ↔ List.Lex (fun a b : Char => a < b) x y := by
  induction x generalizing y with
  | nil =>
    cases y with
    | nil =>
      simp only [charListLt, Bool.false_eq_true, false_iff]
      intro h
      cases h
    | cons b bs => simp only [charListLt, true_iff]; exact List.Lex.nil
  | cons a as ih =>
    cases y with
    | nil =>
      simp only [charListLt, Bool.false_eq_true, false_iff]
      intro h
      cases h
    | cons b bs =>
      by_cases h1 : a < b
      · simp only [charListLt, h1, if_true, true_iff]
        exact List.Lex.rel h1
      · by_cases h2 : b < a
        · simp only [charListLt, h1, h2, if_false, if_true, Bool.false_eq_true, false_iff]
          intro h
          cases h with
          | rel h => exact h1 h
          | cons h => exact lt_irrefl a h2
        · have hab : a = b := le_antisymm (not_lt.mp h2) (not_lt.mp h1)
          subst hab
          simp only [charListLt, h1, h2, if_false]
          constructor
          · intro h
            exact List.Lex.cons ((ih bs).mp h)
          · intro h
            cases h with
            | rel h => exact absurd h h1
            | cons h => exact (ih bs).mpr h

theorem pyStrLt_iff (a b : String) : pyStrLt a b = true ↔ a < b := by
  rw [pyStrLt, charListLt_iff, String.lt_iff_toList_lt]
  exact Iff.rfl

theorem pyStrLe_iff (a b : String) : pyStrLe a b = true ↔ a ≤ b := by
  rw [pyStrLe, Bool.not_eq_true', Bool.eq_false_iff, ne_eq, pyStrLt_iff, not_lt]

/-! ## Lemmas: Except plumbing -/

theorem except_eq_ok_of_isOk {α : Type} (e : Except Unit α) (d : α) (h : e.isOk = true) :
    e = .ok (e.toOption.getD d) := by
  cases e with
  | ok a => rfl
  | error e => exact Bool.noConfusion h

/-! ## Lemmas: the timestamp dictionaries -/

theorem except_ok_bind {α β : Type} (a : α) (f : α → Except Unit β) :
    (Except.ok a >>= f) = f a := rfl

theorem dictGet_dictInsert (d : TsDict) (k : ℤ) (v : ℚ) (k' : ℤ) (dflt : ℚ) :
    dictGet (dictInsert d k v) k' dflt = if k' = k then v else dictGet d k' dflt := by
  induction d with
  | nil =>
    by_cases hk : k' = k
    · subst hk
      simp [dictInsert, dictGet, List.find?]
    · have h1 : ((k : ℤ) == k') = false := by simp [Ne.symm hk]
      simp [dictInsert, dictGet, List.find?, h1, hk]
  | cons p d ih =>
    cases hb : (p.1 == k) with
    | true =>
      have hpk : p.1 = k := beq_iff_eq.mp hb
      simp only [dictInsert, hb, if_true]
      by_cases hk : k' = k
      · subst hk
        have h1 : (((k', v) : ℤ × ℚ).1 == k') = true := by simp
        simp [dictGet, List.find?_cons_of_pos, h1]
      · have h1 : ((k : ℤ) == k') = false := by simp [Ne.symm hk]
        have h2 : (p.1 == k') = false := by rw [hpk]; exact h1
        simp only [dictGet, hk, if_false]
        rw [List.find?_cons_of_neg _ (by simp [h1]), List.find?_cons_of_neg _ (by simp [h2])]
    | false =>
      have hpk : ¬ p.1 = k := by simpa using hb
      simp only [dictInsert, hb, Bool.false_eq_true, if_false]
      cases hb2 : (p.1 == k') with
      | true =>
        have hpk' : p.1 = k' := beq_iff_eq.mp hb2
        have hk : ¬ k' = k := fun h => hpk (h ▸ hpk')
        simp only [dictGet, hk, if_false, List.find?, hb2]
      | false =>
        simp only [dictGet] at ih ⊢
        simp only [List.find?, hb2]
        exact ih

theorem mem_dictKeys_dictInsert (d : TsDict) (k : ℤ) (v : ℚ) (k' : ℤ) :
    k' ∈ dictKeys (dictInsert d k v) ↔ k' ∈ dictKeys d ∨ k' = k := by
  induction d with
  | nil => simp [dictInsert, dictKeys]
  | cons p d ih =>
    cases hb : (p.1 == k) with
    | true =>
      have hpk : p.1 = k := beq_iff_eq.mp hb
      simp only [dictInsert, hb, if_true, dictKeys, List.map_cons, List.mem_cons]
      subst hpk
      tauto
    | false =>
      simp only [dictInsert, hb, Bool.false_eq_true, if_false, dictKeys, List.map_cons,
        List.mem_cons]
      rw [show (List.map Prod.fst (dictInsert d k v)) = dictKeys (dictInsert d k v) from rfl,
        show (List.map Prod.fst d) = dictKeys d from rfl]
      rw [ih]
      tauto

theorem nodup_dictKeys_dictInsert (d : TsDict) (k : ℤ) (v : ℚ)
    (hd : (dictKeys d).Nodup) : (dictKeys (dictInsert d k v)).Nodup := by
  induction d with
  | nil => simp [dictInsert, dictKeys]
  | cons p d ih =>
    rw [show dictKeys (p :: d) = p.1 :: dictKeys d from rfl] at hd
    rcases List.nodup_cons.mp hd with ⟨hpm, hdn⟩
    by_cases hp : p.1 = k
    · have : (p.1 == k) = true := by simp [hp]
      simp only [dictInsert, this, if_true]
      rw [show dictKeys ((k, v) :: d) = k :: dictKeys d from rfl]
      exact List.nodup_cons.mpr ⟨hp ▸ hpm, hdn⟩
    · have : (p.1 == k) = false := by simp [hp]
      simp only [dictInsert, this, Bool.false_eq_true, if_false]
      rw [show dictKeys (p :: dictInsert d k v) = p.1 :: dictKeys (dictInsert d k v) from rfl]
      refine List.nodup_cons.mpr ⟨fun hmem => ?_, ih hdn⟩
      rcases (mem_dictKeys_dictInsert d k v p.1).mp hmem with h | h
      · exact hpm h
      · exact hp h

theorem lastSampleAt_nil (k : ℤ) : lastSampleAt [] k = none := rfl

theorem lastSampleAt_cons (s : Sample) (rest : List Sample) (k : ℤ) :
    lastSampleAt (s :: rest) k =
      (lastSampleAt rest k).or (if s.timestamp == some k then some s else none) := by
  unfold lastSampleAt
  rw [List.reverse_cons, List.find?_append]
  congr 1
  cases h : (s.timestamp == some k) with
  | true => simp [List.find?, h]
  | false => simp [List.find?, h]

theorem lastSampleAt_mem {stream : List Sample} {k : ℤ} {s₀ : Sample}
    (h : lastSampleAt stream k = some s₀) : s₀ ∈ stream ∧ s₀.timestamp = some k := by
  unfold lastSampleAt at h
  refine ⟨List.mem_reverse.mp (List.mem_of_find?_eq_some h), ?_⟩
  have := List.find?_some h
  exact beq_iff_eq.mp this

theorem sampleKV_ok {s : Sample} {t : ℤ} {v : ℚ} (h : sampleKV s = .ok (t, v)) :
    s.timestamp = some t ∧ s.value = some v := by
  unfold sampleKV at h
  cases hts : s.timestamp with
  | none => rw [hts] at h; cases h
  | some t' =>
    cases hv : s.value with
    | none => rw [hts, hv] at h; cases h
    | some v' =>
      rw [hts, hv] at h
      cases h
      exact ⟨rfl, rfl⟩

theorem sampleKV_ok_of_wf {s : Sample} (h : sampleMalformed s = false) :
    ∃ t v, sampleKV s = .ok (t, v) := by
  unfold sampleMalformed at h
  cases hts : s.timestamp with
  | none => rw [hts] at h; cases h
  | some t =>
    cases hv : s.value with
    | none => rw [hts, hv] at h; cases h
    | some v => exact ⟨t, v, by unfold sampleKV; rw [hts, hv]⟩

theorem foldlM_dictStep_wf :
    ∀ (stream : List Sample) (acc d : TsDict),
      stream.foldlM dictStep acc = Except.ok d →
      ∀ s ∈ stream, sampleMalformed s = false := by
  intro stream
  induction stream with
  | nil => intro acc d _ s hs; cases hs
  | cons s rest ih =>
    intro acc d h x hx
    rw [List.foldlM_cons] at h
    cases hkv : sampleKV s with
    | error e =>
      rw [show dictStep acc s = .error e by simp [dictStep, hkv]] at h
      cases h
    | ok kv =>
      obtain ⟨t, v⟩ := kv
      rw [show dictStep acc s = .ok (dictInsert acc t v) by simp [dictStep, hkv]] at h
      rw [except_ok_bind] at h
      rcases List.mem_cons.mp hx with rfl | hx
      · rcases sampleKV_ok hkv with ⟨h1, h2⟩
        simp [sampleMalformed, h1, h2]
      · exact ih _ d h x hx

theorem foldlM_dictStep_ok_of_wf :
    ∀ (stream : List Sample) (acc : TsDict),
      (∀ s ∈ stream, sampleMalformed s = false) →
      ∃ d, stream.foldlM dictStep acc = Except.ok d := by
  intro stream
  induction stream with
  | nil => intro acc _; exact ⟨acc, rfl⟩
  | cons s rest ih =>
    intro acc hwf
    obtain ⟨t, v, hkv⟩ := sampleKV_ok_of_wf (hwf s (List.mem_cons_self s rest))
    obtain ⟨d, hd⟩ := ih (dictInsert acc t v) (fun x hx => hwf x (List.mem_cons_of_mem s hx))
    refine ⟨d, ?_⟩
    rw [List.foldlM_cons, show dictStep acc s = .ok (dictInsert acc t v) by simp [dictStep, hkv],
      except_ok_bind]
    exact hd

theorem foldlM_dictStep_get :
    ∀ (stream : List Sample) (acc d : TsDict),
      stream.foldlM dictStep acc = Except.ok d →
      ∀ (k : ℤ) (dflt : ℚ),
        dictGet d k dflt =
          match lastValueAt stream k with
          | some v => v
          | none => dictGet acc k dflt := by
  intro stream
  induction stream with
  | nil =>
    intro acc d h k dflt
    cases h
    simp [lastValueAt, lastSampleAt_nil]
  | cons s rest ih =>
    intro acc d h k dflt
    rw [List.foldlM_cons] at h
    cases hkv : sampleKV s with
    | error e =>
      rw [show dictStep acc s = .error e by simp [dictStep, hkv]] at h
      cases h
    | ok kv =>
      obtain ⟨t, v⟩ := kv
      rcases sampleKV_ok hkv with ⟨hts, hv⟩
      rw [show dictStep acc s = .ok (dictInsert acc t v) by simp [dictStep, hkv]] at h
      rw [except_ok_bind] at h
      have hrec := ih _ d h k dflt
      cases hr : lastSampleAt rest k with
      | some s₀ =>
        obtain ⟨hmem, hts₀⟩ := lastSampleAt_mem hr
        have hwfs := foldlM_dictStep_wf rest _ d h s₀ hmem
        obtain ⟨w, hw⟩ : ∃ w, s₀.value = some w := by
          unfold sampleMalformed at hwfs
          cases hval : s₀.value with
          | none => rw [hval] at hwfs; simp at hwfs
          | some w => exact ⟨w, rfl⟩
        have hLrest : lastValueAt rest k = some w := by
          unfold lastValueAt
          rw [hr]
          simpa using hw
        have hLcons : lastValueAt (s :: rest) k = some w := by
          unfold lastValueAt
          rw [lastSampleAt_cons, hr]
          simpa using hw
        rw [hLrest] at hrec
        rw [hLcons]
        simpa using hrec
      | none =>
        have hLrest : lastValueAt rest k = none := by
          unfold lastValueAt
          rw [hr]
          rfl
        rw [hLrest] at hrec
        simp only [] at hrec
        have hLcons : lastValueAt (s :: rest) k = (if t = k then some v else none) := by
          unfold lastValueAt
          rw [lastSampleAt_cons, hr, Option.none_or, hts]
          by_cases hk : t = k
          · subst hk
            simp [hv]
          · have hbk : ((some t : Option ℤ) == some k) = false := by simp [hk]
            simp [hbk, hk]
        rw [hLcons]
        by_cases hk : t = k
        · simp only [hk, if_pos rfl]
          rw [hrec, dictGet_dictInsert]
          simp [hk]
        · simp only [hk, if_false]
          rw [hrec, dictGet_dictInsert]
          have hkk : ¬ k = t := fun h' => hk h'.symm
          simp [hkk]

theorem foldlM_dictStep_mem_keys :
    ∀ (stream : List Sample) (acc d : TsDict),
      stream.foldlM dictStep acc = Except.ok d →
      ∀ k : ℤ,
        (k ∈ dictKeys d ↔
          k ∈ dictKeys acc ∨ (some k) ∈ stream.map (fun s => s.timestamp)) := by
  intro stream
  induction stream with
  | nil =>
    intro acc d h k
    cases h
    simp
  | cons s rest ih =>
    intro acc d h k
    rw [List.foldlM_cons] at h
    cases hkv : sampleKV s with
    | error e =>
      rw [show dictStep acc s = .error e by simp [dictStep, hkv]] at h
      cases h
    | ok kv =>
      obtain ⟨t, v⟩ := kv
      rcases sampleKV_ok hkv with ⟨hts, _⟩
      rw [show dictStep acc s = .ok (dictInsert acc t v) by simp [dictStep, hkv]] at h
      rw [except_ok_bind] at h
      rw [ih _ d h k, mem_dictKeys_dictInsert]
      simp only [List.map_cons, List.mem_cons, hts]
      constructor
      · rintro ((h | rfl) | h)
        · exact Or.inl h
        · exact Or.inr (Or.inl rfl)
        · exact Or.inr (Or.inr h)
      · rintro (h | h | h)
        · exact Or.inl (Or.inl h)
        · exact Or.inl (Or.inr (Option.some.inj h.symm).symm)
        · exact Or.inr h

theorem foldlM_dictStep_nodup :
    ∀ (stream : List Sample) (acc d : TsDict),
      stream.foldlM dictStep acc = Except.ok d →
      (dictKeys acc).Nodup → (dictKeys d).Nodup := by
  intro stream
  induction stream with
  | nil => intro acc d h hn; cases h; exact hn
  | cons s rest ih =>
    intro acc d h hn
    rw [List.foldlM_cons] at h
    cases hkv : sampleKV s with
    | error e =>
      rw [show dictStep acc s = .error e by simp [dictStep, hkv]] at h
      cases h
    | ok kv =>
      obtain ⟨t, v⟩ := kv
      rw [show dictStep acc s = .ok (dictInsert acc t v) by simp [dictStep, hkv]] at h
      rw [except_ok_bind] at h
      exact ih _ d h (nodup_dictKeys_dictInsert acc t v hn)

theorem buildDict_get {stream : List Sample} {d : TsDict}
    (h : buildDict stream = Except.ok d) (k : ℤ) (dflt : ℚ) :
    dictGet d k dflt =
      match lastValueAt stream k with
      | some v => v
      | none => dflt := by
  have := foldlM_dictStep_get stream [] d h k dflt
  cases hr : lastValueAt stream k with
  | some w => rw [hr] at this; simpa using this
  | none => rw [hr] at this; rw [this]; rfl

theorem buildDict_valueAtD {stream : List Sample} {d : TsDict}
    (h : buildDict stream = Except.ok d) (k : ℤ) :
    dictGet d k 0 = valueAtD stream k := by
  rw [buildDict_get h k 0, valueAtD]
  cases lastValueAt stream k with
  | some w => rfl
  | none => rfl

theorem buildDict_mem_keys {stream : List Sample} {d : TsDict}
    (h : buildDict stream = Except.ok d) (k : ℤ) :
    k ∈ dictKeys d ↔ (some k) ∈ stream.map (fun s => s.timestamp) := by
  have := foldlM_dictStep_mem_keys stream [] d h k
  simpa [dictKeys] using this

theorem buildDict_nodup {stream : List Sample} {d : TsDict}
    (h : buildDict stream = Except.ok d) : (dictKeys d).Nodup := by
  exact foldlM_dictStep_nodup stream [] d h (by simp [dictKeys])

theorem buildDict_wf {stream : List Sample} {d : TsDict}
    (h : buildDict stream = Except.ok d) : ∀ s ∈ stream, sampleMalformed s = false :=
  foldlM_dictStep_wf stream [] d h

theorem buildDict_ok_of_wf {stream : List Sample}
    (h : ∀ s ∈ stream, sampleMalformed s = false) :
    ∃ d, buildDict stream = Except.ok d :=
  foldlM_dictStep_ok_of_wf stream [] h

/-! ## Lemmas: per-record row extraction -/

theorem except_bind_ok_inv {α β : Type} {e : Except Unit α} {f : α → Except Unit β} {b : β}
    (h : (e >>= f) = .ok b) : ∃ a, e = .ok a ∧ f a = .ok b := by
  cases e with
  | ok a => exact ⟨a, rfl, h⟩
  | error e => cases h

theorem recordRows_skip {r : RawResult} (h : skipsTimeseries r = true) :
    recordRows r = .ok [] := by
  cases hts : r.timeseries with
  | none => simp [recordRows, hts]
  | some ts =>
    have hc : (!tsTruthy ts || !cpuTruthy ts.cpu_cores) = true := by
      simpa [skipsTimeseries, hts] using h
    simp [recordRows, hts, hc]

theorem not_skip_timeseries_some {r : RawResult} (h : skipsTimeseries r = false) :
    ∃ ts, r.timeseries = some ts ∧ (!tsTruthy ts || !cpuTruthy ts.cpu_cores) = false := by
  cases hts : r.timeseries with
  | none => rw [skipsTimeseries, hts] at h; cases h
  | some ts =>
    refine ⟨ts, rfl, ?_⟩
    rw [skipsTimeseries, hts] at h
    exact h

theorem recordWF_iff (r : RawResult) : recordWF r = true ↔
    ((∀ s ∈ cpuStream r, sampleMalformed s = false) ∧
     (∀ s ∈ memStream r, sampleMalformed s = false) ∧
     (∀ s ∈ spansStream r, sampleMalformed s = false) ∧
     (∀ s ∈ bytesStream r, sampleMalformed s = false) ∧
     (∀ s ∈ p50Stream r, sampleMalformed s = false) ∧
     (∀ s ∈ p90Stream r, sampleMalformed s = false) ∧
     (∀ s ∈ p99Stream r, sampleMalformed s = false) ∧
     (∀ s ∈ failsStream r, sampleMalformed s = false) ∧
     (∀ s ∈ droppedStream r, sampleMalformed s = false)) := by
  cases hts : r.timeseries with
  | none =>
    simp [recordWF, allStreams, hts, cpuStream, memStream, spansStream, bytesStream,
      p50Stream, p90Stream, p99Stream, failsStream, droppedStream]
  | some ts =>
    simp [recordWF, allStreams, hts, cpuStream, memStream, spansStream, bytesStream,
      p50Stream, p90Stream, p99Stream, failsStream, droppedStream,
      Bool.not_eq_true', and_assoc]

theorem recordRows_ok_char (r : RawResult)
    (hskip : skipsTimeseries r = false) (hwf : recordWF r = true) :
    ∃ l, recordRows r = .ok l ∧
      (l.map (fun q => q.timestamp)).Nodup ∧
      (∀ t : ℤ, t ∈ l.map (fun q => q.timestamp) ↔
        (some t) ∈ (cpuStream r).map (fun s => s.timestamp)) ∧
      (∀ q ∈ l, q.load_name = r.load_name.getD "unknown" ∧
        q.cpu_cores = valueAtD (cpuStream r) q.timestamp ∧
        q.memory_gb = valueAtD (memStream r) q.timestamp ∧
        q.spans_per_sec = valueAtD (spansStream r) q.timestamp ∧
        q.bytes_per_sec = valueAtD (bytesStream r) q.timestamp ∧
        q.p50_ms = valueAtD (p50Stream r) q.timestamp * 1000 ∧
        q.p90_ms = valueAtD (p90Stream r) q.timestamp * 1000 ∧
        q.p99_ms = valueAtD (p99Stream r) q.timestamp * 1000 ∧
        q.query_failures = valueAtD (failsStream r) q.timestamp ∧
        q.dropped_spans = valueAtD (droppedStream r) q.timestamp) := by
  obtain ⟨ts, hts, hcond⟩ := not_skip_timeseries_some hskip
  obtain ⟨wf1, wf2, wf3, wf4, wf5, wf6, wf7, wf8, wf9⟩ := (recordWF_iff r).mp hwf
  rw [show cpuStream r = streamOf ts.cpu_cores by simp [cpuStream, hts]] at wf1
  rw [show memStream r = streamOf ts.memory_gb by simp [memStream, hts]] at wf2
  rw [show spansStream r = streamOf ts.spans_per_second by simp [spansStream, hts]] at wf3
  rw [show bytesStream r = streamOf ts.bytes_per_second by simp [bytesStream, hts]] at wf4
  rw [show p50Stream r = streamOf ts.p50_latency_seconds by simp [p50Stream, hts]] at wf5
  rw [show p90Stream r = streamOf ts.p90_latency_seconds by simp [p90Stream, hts]] at wf6
  rw [show p99Stream r = streamOf ts.p99_latency_seconds by simp [p99Stream, hts]] at wf7
  rw [show failsStream r = streamOf ts.query_failures_per_second
    by simp [failsStream, hts]] at wf8
  rw [show droppedStream r = streamOf ts.dropped_spans_per_second
    by simp [droppedStream, hts]] at wf9
  obtain ⟨d1, hd1⟩ := buildDict_ok_of_wf wf1
  obtain ⟨d2, hd2⟩ := buildDict_ok_of_wf wf2
  obtain ⟨d3, hd3⟩ := buildDict_ok_of_wf wf3
  obtain ⟨d4, hd4⟩ := buildDict_ok_of_wf wf4
  obtain ⟨d5, hd5⟩ := buildDict_ok_of_wf wf5
  obtain ⟨d6, hd6⟩ := buildDict_ok_of_wf wf6
  obtain ⟨d7, hd7⟩ := buildDict_ok_of_wf wf7
  obtain ⟨d8, hd8⟩ := buildDict_ok_of_wf wf8
  obtain ⟨d9, hd9⟩ := buildDict_ok_of_wf wf9
  have hrr : recordRows r = .ok ((stableSortBy intLe (dictKeys d1)).map
      (fun t => mkTSRow (r.load_name.getD "unknown") t d1 d2 d3 d4 d5 d6 d7 d8 d9)) := by
    simp only [recordRows, hts]
    rw [if_neg (by rw [hcond]; exact Bool.false_ne_true)]
    rw [show (do
        let ln := r.load_name.getD "unknown"
        let cpu ← buildDict (streamOf ts.cpu_cores)
        let mem ← buildDict (streamOf ts.memory_gb)
        let spans ← buildDict (streamOf ts.spans_per_second)
        let bytes ← buildDict (streamOf ts.bytes_per_second)
        let p50 ← buildDict (streamOf ts.p50_latency_seconds)
        let p90 ← buildDict (streamOf ts.p90_latency_seconds)
        let p99 ← buildDict (streamOf ts.p99_latency_seconds)
        let fails ← buildDict (streamOf ts.query_failures_per_second)
        let dropped ← buildDict (streamOf ts.dropped_spans_per_second)
        Except.ok ((stableSortBy intLe (dictKeys cpu)).map
          (fun t => mkTSRow ln t cpu mem spans bytes p50 p90 p99 fails dropped)) :
        Except Unit (List TSRow)) =
        (buildDict (streamOf ts.cpu_cores) >>= fun cpu =>
          buildDict (streamOf ts.memory_gb) >>= fun mem =>
          buildDict (streamOf ts.spans_per_second) >>= fun spans =>
          buildDict (streamOf ts.bytes_per_second) >>= fun bytes =>
          buildDict (streamOf ts.p50_latency_seconds) >>= fun p50 =>
          buildDict (streamOf ts.p90_latency_seconds) >>= fun p90 =>
          buildDict (streamOf ts.p99_latency_seconds) >>= fun p99 =>
          buildDict (streamOf ts.query_failures_per_second) >>= fun fails =>
          buildDict (streamOf ts.dropped_spans_per_second) >>= fun dropped =>
          Except.ok ((stableSortBy intLe (dictKeys cpu)).map
            (fun t => mkTSRow (r.load_name.getD "unknown") t cpu mem spans bytes
              p50 p90 p99 fails dropped))) from rfl]
    rw [hd1, except_ok_bind, hd2, except_ok_bind, hd3, except_ok_bind, hd4, except_ok_bind,
      hd5, except_ok_bind, hd6, except_ok_bind, hd7, except_ok_bind, hd8, except_ok_bind,
      hd9, except_ok_bind]
  refine ⟨_, hrr, ?_, ?_, ?_⟩
  · rw [List.map_map]
    have : ((fun q : TSRow => q.timestamp) ∘
        (fun t => mkTSRow (r.load_name.getD "unknown") t d1 d2 d3 d4 d5 d6 d7 d8 d9)) =
        fun t => t := rfl
    rw [this, List.map_id']
    exact ((stableSortBy_perm intLe (dictKeys d1)).nodup_iff).mpr (buildDict_nodup hd1)
  · intro t
    rw [List.map_map]
    have : ((fun q : TSRow => q.timestamp) ∘
        (fun t => mkTSRow (r.load_name.getD "unknown") t d1 d2 d3 d4 d5 d6 d7 d8 d9)) =
        fun t => t := rfl
    rw [this, List.map_id']
    rw [(stableSortBy_perm intLe (dictKeys d1)).mem_iff]
    rw [buildDict_mem_keys hd1 t]
    rw [show cpuStream r = streamOf ts.cpu_cores by simp [cpuStream, hts]]
  · intro q hq
    obtain ⟨t, _, rfl⟩ := List.mem_map.mp hq
    rw [show cpuStream r = streamOf ts.cpu_cores by simp [cpuStream, hts]]
    rw [show memStream r = streamOf ts.memory_gb by simp [memStream, hts]]
    rw [show spansStream r = streamOf ts.spans_per_second by simp [spansStream, hts]]
    rw [show bytesStream r = streamOf ts.bytes_per_second by simp [bytesStream, hts]]
    rw [show p50Stream r = streamOf ts.p50_latency_seconds by simp [p50Stream, hts]]
    rw [show p90Stream r = streamOf ts.p90_latency_seconds by simp [p90Stream, hts]]
    rw [show p99Stream r = streamOf ts.p99_latency_seconds by simp [p99Stream, hts]]
    rw [show failsStream r = streamOf ts.query_failures_per_second
      by simp [failsStream, hts]]
    rw [show droppedStream r = streamOf ts.dropped_spans_per_second
      by simp [droppedStream, hts]]
    refine ⟨rfl, ?_, ?_, ?_, ?_, ?_, ?_, ?_, ?_, ?_⟩
    · exact buildDict_valueAtD hd1 _
    · exact buildDict_valueAtD hd2 _
    · exact buildDict_valueAtD hd3 _
    · exact buildDict_valueAtD hd4 _
    · exact congrArg (fun x => x * 1000) (buildDict_valueAtD hd5 _)
    · exact congrArg (fun x => x * 1000) (buildDict_valueAtD hd6 _)
    · exact congrArg (fun x => x * 1000) (buildDict_valueAtD hd7 _)
    · exact buildDict_valueAtD hd8 _
    · exact buildDict_valueAtD hd9 _

theorem recordRows_ok_wf {r : RawResult} {l : List TSRow}
    (h : recordRows r = .ok l) (hskip : skipsTimeseries r = false) :
    recordWF r = true := by
  obtain ⟨ts, hts, hcond⟩ := not_skip_timeseries_some hskip
  rw [show recordRows r =
      (buildDict (streamOf ts.cpu_cores) >>= fun cpu =>
        buildDict (streamOf ts.memory_gb) >>= fun mem =>
        buildDict (streamOf ts.spans_per_second) >>= fun spans =>
        buildDict (streamOf ts.bytes_per_second) >>= fun bytes =>
        buildDict (streamOf ts.p50_latency_seconds) >>= fun p50 =>
        buildDict (streamOf ts.p90_latency_seconds) >>= fun p90 =>
        buildDict (streamOf ts.p99_latency_seconds) >>= fun p99 =>
        buildDict (streamOf ts.query_failures_per_second) >>= fun fails =>
        buildDict (streamOf ts.dropped_spans_per_second) >>= fun dropped =>
        Except.ok ((stableSortBy intLe (dictKeys cpu)).map
          (fun t => mkTSRow (r.load_name.getD "unknown") t cpu mem spans bytes
            p50 p90 p99 fails dropped))) by
    simp only [recordRows, hts]
    rw [if_neg (by rw [hcond]; exact Bool.false_ne_true)]] at h
  obtain ⟨a1, hd1, h⟩ := except_bind_ok_inv h
  obtain ⟨a2, hd2, h⟩ := except_bind_ok_inv h
  obtain ⟨a3, hd3, h⟩ := except_bind_ok_inv h
  obtain ⟨a4, hd4, h⟩ := except_bind_ok_inv h
  obtain ⟨a5, hd5, h⟩ := except_bind_ok_inv h
  obtain ⟨a6, hd6, h⟩ := except_bind_ok_inv h
  obtain ⟨a7, hd7, h⟩ := except_bind_ok_inv h
  obtain ⟨a8, hd8, h⟩ := except_bind_ok_inv h
  obtain ⟨a9, hd9, _⟩ := except_bind_ok_inv h
  refine (recordWF_iff r).mpr ?_
  rw [show cpuStream r = streamOf ts.cpu_cores by simp [cpuStream, hts]]
  rw [show memStream r = streamOf ts.memory_gb by simp [memStream, hts]]
  rw [show spansStream r = streamOf ts.spans_per_second by simp [spansStream, hts]]
  rw [show bytesStream r = streamOf ts.bytes_per_second by simp [bytesStream, hts]]
  rw [show p50Stream r = streamOf ts.p50_latency_seconds by simp [p50Stream, hts]]
  rw [show p90Stream r = streamOf ts.p90_latency_seconds by simp [p90Stream, hts]]
  rw [show p99Stream r = streamOf ts.p99_latency_seconds by simp [p99Stream, hts]]
  rw [show failsStream r = streamOf ts.query_failures_per_second by simp [failsStream, hts]]
  rw [show droppedStream r = streamOf ts.dropped_spans_per_second
    by simp [droppedStream, hts]]
  exact ⟨buildDict_wf hd1, buildDict_wf hd2, buildDict_wf hd3, buildDict_wf hd4,
    buildDict_wf hd5, buildDict_wf hd6, buildDict_wf hd7, buildDict_wf hd8,
    buildDict_wf hd9⟩

theorem recordRows_error_of_malformed {r : RawResult}
    (hskip : skipsTimeseries r = false) (hmal : recordWF r = false) :
    recordRows r = .error () := by
  cases hrr : recordRows r with
  | ok l => exact absurd (recordRows_ok_wf hrr hskip) (by rw [hmal]; exact Bool.false_ne_true)
  | error e => cases e; rfl

/-! ## Lemmas: the batch fold of `extract_timeseries_data` -/

theorem tsFoldStep_eq (acc : List TSRow) (r : RawResult) :
    tsFoldStep acc r = recordRows r >>= fun l => pure (acc ++ l) := rfl

theorem except_pure_bind {α β : Type} (a : α) (f : α → Except Unit β) :
    ((pure a : Except Unit α) >>= f) = f a := rfl

theorem foldAppend_ok :
    ∀ (results : List RawResult) (acc base : List TSRow),
      results.foldlM tsFoldStep acc = .ok base →
      base = acc ++ (results.map (fun r => ((recordRows r).toOption.getD []))).flatten := by
  intro results
  induction results with
  | nil =>
    intro acc base h
    cases h
    simp
  | cons r rest ih =>
    intro acc base h
    rw [List.foldlM_cons, tsFoldStep_eq] at h
    cases hrr : recordRows r with
    | error e =>
      rw [hrr] at h
      cases h
    | ok l =>
      rw [hrr, except_ok_bind, except_pure_bind] at h
      have hbase := ih _ _ h
      rw [hbase, List.map_cons, List.flatten_cons, hrr]
      simp [List.append_assoc, Except.toOption]

theorem foldAppend_error_of_mem :
    ∀ (results : List RawResult) (acc : List TSRow) (r : RawResult),
      r ∈ results → recordRows r = .error () →
      results.foldlM tsFoldStep acc = .error () := by
  intro results
  induction results with
  | nil => intro acc r hr; cases hr
  | cons a rest ih =>
    intro acc r hr herr
    rw [List.foldlM_cons, tsFoldStep_eq]
    cases hra : recordRows a with
    | error e =>
      cases e
      rfl
    | ok l =>
      rw [except_ok_bind, except_pure_bind]
      rcases List.mem_cons.mp hr with rfl | hr
      · rw [hra] at herr
        cases herr
      · exact ih _ r hr herr

theorem extract_ok_inv {results : List RawResult} {pts : List TimeSeriesPoint}
    (h : extract_timeseries_data results = .ok pts) :
    ∃ base, results.foldlM tsFoldStep ([] : List TSRow) = .ok base ∧
      pts = addMinutes (stableSortBy rowLe base) := by
  rw [show extract_timeseries_data results =
      (results.foldlM tsFoldStep ([] : List TSRow) >>= fun rows =>
        pure (addMinutes (stableSortBy rowLe rows))) from rfl] at h
  obtain ⟨base, hfold, hpure⟩ := except_bind_ok_inv h
  exact ⟨base, hfold, (Except.ok.inj hpure).symm⟩

theorem extract_error_of_mem {results : List RawResult} {r : RawResult}
    (hr : r ∈ results) (herr : recordRows r = .error ()) :
    extract_timeseries_data results = .error () := by
  rw [show extract_timeseries_data results =
      (results.foldlM tsFoldStep ([] : List TSRow) >>= fun rows =>
        pure (addMinutes (stableSortBy rowLe rows))) from rfl]
  rw [foldAppend_error_of_mem results [] r hr herr]
  rfl

/-! ## Lemmas: minima and the minute column -/

theorem foldl_min_le_init : ∀ (l : List ℤ) (a : ℤ), l.foldl (fun x y => min x y) a ≤ a := by
  intro l
  induction l with
  | nil => intro a; exact le_refl a
  | cons y ys ih =>
    intro a
    rw [List.foldl_cons]
    exact le_trans (ih (min a y)) (min_le_left a y)

theorem foldl_min_le_mem :
    ∀ (l : List ℤ) (a x : ℤ), x ∈ l → l.foldl (fun x y => min x y) a ≤ x := by
  intro l
  induction l with
  | nil => intro a x hx; cases hx
  | cons y ys ih =>
    intro a x hx
    rw [List.foldl_cons]
    rcases List.mem_cons.mp hx with rfl | hx
    · exact le_trans (foldl_min_le_init ys (min a x)) (min_le_right a x)
    · exact ih (min a y) x hx

theorem foldl_min_cases :
    ∀ (l : List ℤ) (a : ℤ), l.foldl (fun x y => min x y) a = a ∨
      l.foldl (fun x y => min x y) a ∈ l := by
  intro l
  induction l with
  | nil => intro a; exact Or.inl rfl
  | cons y ys ih =>
    intro a
    rw [List.foldl_cons]
    rcases ih (min a y) with h | h
    · rcases min_choice a y with hm | hm
      · exact Or.inl (h.trans hm)
      · exact Or.inr (List.mem_cons.mpr (Or.inl (h.trans hm)))
    · exact Or.inr (List.mem_cons.mpr (Or.inr h))

theorem listMinD_le {l : List ℤ} {x : ℤ} (hx : x ∈ l) : listMinD l ≤ x := by
  cases l with
  | nil => cases hx
  | cons y ys =>
    rcases List.mem_cons.mp hx with rfl | hx
    · exact foldl_min_le_init ys x
    · exact foldl_min_le_mem ys y x hx

theorem listMinD_mem {l : List ℤ} (h : l ≠ []) : listMinD l ∈ l := by
  cases l with
  | nil => exact absurd rfl h
  | cons y ys =>
    rcases foldl_min_cases ys y with hc | hc
    · exact List.mem_cons.mpr (Or.inl hc)
    · exact List.mem_cons.mpr (Or.inr hc)

theorem minTsForPoints_addMinutes (rows : List TSRow) (load : String) :
    minTsForPoints (addMinutes rows) load = minTsFor rows load := by
  unfold minTsForPoints minTsFor addMinutes
  rw [List.filter_map, List.map_map]
  rfl

theorem mem_addMinutes {rows : List TSRow} {p : TimeSeriesPoint}
    (hp : p ∈ addMinutes rows) :
    ∃ q ∈ rows, p.toTSRow = q ∧
      p.minute = (q.timestamp - minTsFor rows q.load_name) / 60 + 1 := by
  obtain ⟨q, hq, rfl⟩ := List.mem_map.mp hp
  exact ⟨q, hq, rfl, rfl⟩

theorem addMinutes_surj {rows : List TSRow} {q : TSRow} (hq : q ∈ rows) :
    ∃ p ∈ addMinutes rows, p.toTSRow = q ∧
      p.minute = (q.timestamp - minTsFor rows q.load_name) / 60 + 1 := by
  refine ⟨⟨q, (q.timestamp - minTsFor rows q.load_name) / 60 + 1⟩, ?_, rfl, rfl⟩
  exact List.mem_map.mpr ⟨q, hq, rfl⟩

/-! ## Lemmas: the summary rows -/

theorem summaryRow_load_name (r : RawResult) :
    (summaryRow r).load_name = r.load_name.getD "unknown" := rfl

theorem summaryRow_mb (r : RawResult) :
    (summaryRow r).mb_per_sec = (srcMbPerSec r).getD 0 := by
  rcases r with ⟨ln, cfg, m, tsv⟩
  cases cfg <;> rfl

theorem summaryRow_bytes (r : RawResult) :
    (summaryRow r).bytes_per_sec = (srcBytesPerSecond r).getD 0 := by
  rcases r with ⟨ln, cfg, m, tsv⟩
  rcases m with _ | ⟨th, ql, res, er⟩
  · rfl
  · cases th <;> rfl

theorem summaryRow_spans (r : RawResult) :
    (summaryRow r).spans_per_sec = (srcSpansPerSecond r).getD 0 := by
  rcases r with ⟨ln, cfg, m, tsv⟩
  rcases m with _ | ⟨th, ql, res, er⟩
  · rfl
  · cases th <;> rfl

theorem summaryRow_p50 (r : RawResult) :
    (summaryRow r).p50_ms = (srcP50Seconds r).getD 0 * 1000 := by
  rcases r with ⟨ln, cfg, m, tsv⟩
  rcases m with _ | ⟨th, ql, res, er⟩
  · rfl
  · cases ql <;> rfl

theorem summaryRow_p90 (r : RawResult) :
    (summaryRow r).p90_ms = (srcP90Seconds r).getD 0 * 1000 := by
  rcases r with ⟨ln, cfg, m, tsv⟩
  rcases m with _ | ⟨th, ql, res, er⟩
  · rfl
  · cases ql <;> rfl

theorem summaryRow_p99 (r : RawResult) :
    (summaryRow r).p99_ms = (srcP99Seconds r).getD 0 * 1000 := by
  rcases r with ⟨ln, cfg, m, tsv⟩
  rcases m with _ | ⟨th, ql, res, er⟩
  · rfl
  · cases ql <;> rfl

theorem summaryRow_cpu (r : RawResult) :
    (summaryRow r).cpu_cores = (srcAvgCpuCores r).getD 0 := by
  rcases r with ⟨ln, cfg, m, tsv⟩
  rcases m with _ | ⟨th, ql, res, er⟩
  · rfl
  · cases res <;> rfl

theorem summaryRow_mem (r : RawResult) :
    (summaryRow r).memory_gb = (srcMaxMemoryGb r).getD 0 := by
  rcases r with ⟨ln, cfg, m, tsv⟩
  rcases m with _ | ⟨th, ql, res, er⟩
  · rfl
  · cases res <;> rfl

theorem summaryRow_error_rate (r : RawResult) :
    (summaryRow r).error_rate = (srcErrorRatePercent r).getD 0 := by
  rcases r with ⟨ln, cfg, m, tsv⟩
  rcases m with _ | ⟨th, ql, res, er⟩
  · rfl
  · cases er <;> rfl

theorem summaryRow_dropped (r : RawResult) :
    (summaryRow r).dropped_spans = (srcDroppedSpans r).getD 0 := by
  rcases r with ⟨ln, cfg, m, tsv⟩
  rcases m with _ | ⟨th, ql, res, er⟩
  · rfl
  · cases er <;> rfl

theorem actual_formula (b : ℚ) : (if b ≠ 0 then b / (1024 * 1024) else 0) = b / 1048576 := by
  by_cases hb : b = 0
  · simp [hb]
  · rw [if_pos hb]
    norm_num

theorem summaryRow_actual (r : RawResult) :
    (summaryRow r).mb_per_sec_actual = (summaryRow r).bytes_per_sec / 1048576 :=
  actual_formula (((r.metrics.getD Metrics.empty).throughput.getD
    Throughput.empty).bytes_per_second.getD 0)

theorem rateLe_total : ∀ x y : SummaryRow, rateLe x y = true ∨ rateLe y x = true := by
  intro x y
  rcases le_total x.mb_per_sec y.mb_per_sec with h | h
  · exact Or.inl (decide_eq_true h)
  · exact Or.inr (decide_eq_true h)

theorem rateLe_trans :
    ∀ x y z : SummaryRow, rateLe x y = true → rateLe y z = true → rateLe x z = true := by
  intro x y z h1 h2
  exact decide_eq_true (le_trans (of_decide_eq_true h1) (of_decide_eq_true h2))

theorem sorted_perm_eq_of_nodup_keys {l₁ l₂ : List SummaryRow}
    (hp : l₁.Perm l₂)
    (hs₁ : List.Sorted (fun a b : SummaryRow => a.mb_per_sec ≤ b.mb_per_sec) l₁)
    (hs₂ : List.Sorted (fun a b : SummaryRow => a.mb_per_sec ≤ b.mb_per_sec) l₂)
    (hnd : List.Pairwise (fun a b : SummaryRow => a.mb_per_sec ≠ b.mb_per_sec) l₁) :
    l₁ = l₂ := by
  have hnd₂ : List.Pairwise (fun a b : SummaryRow => a.mb_per_sec ≠ b.mb_per_sec) l₂ :=
    (hp.pairwise_iff (fun h => h.symm)).mp hnd
  have hanti : IsAntisymm SummaryRow
      (fun x y => x.mb_per_sec < y.mb_per_sec ∨ x = y) := by
    constructor
    rintro a b (h1 | rfl) h2
    · rcases h2 with h2 | rfl
      · exact absurd h2 (lt_asymm h1)
      · rfl
    · rfl
  have hs₁' : List.Sorted (fun x y : SummaryRow =>
      x.mb_per_sec < y.mb_per_sec ∨ x = y) l₁ :=
    (hs₁.and hnd).imp (fun h => Or.inl (lt_of_le_of_ne h.1 h.2))
  have hs₂' : List.Sorted (fun x y : SummaryRow =>
      x.mb_per_sec < y.mb_per_sec ∨ x = y) l₂ :=
    (hs₂.and hnd₂).imp (fun h => Or.inl (lt_of_le_of_ne h.1 h.2))
  exact @List.eq_of_perm_of_sorted _ _ hanti _ _ hp hs₁' hs₂'

/-! ## The claims -/

/-- C1 (amended): the Summary Table Builder's output is a permutation of the per-record
rows (same row counts), it is non-decreasing in `mb_per_sec` (any two rows appearing in
this order have non-decreasing target rates), and when all `mb_per_sec` keys are
pairwise distinct it is the unique such list — the stably sorted row sequence.  The
original claim's stability guarantee for equal `mb_per_sec` keys is NOT part of the
code's contract: `sort_values` defaults to numpy's unstable quicksort
(see `claim_C1_counterexample`). -/
theorem claim_C1_sorted_not_stable (results : List RawResult) (out : List SummaryRow)
    (h : SummaryOutcome results out) :
    (∀ row : SummaryRow, out.count row = (summaryRows results).count row) ∧
    (∀ a b : SummaryRow, [a, b].Sublist out → a.mb_per_sec ≤ b.mb_per_sec) ∧
    ((summaryRows results).Pairwise (fun x y => x.mb_per_sec ≠ y.mb_per_sec) →
      out = stableSortBy rateLe (summaryRows results)) := by
  obtain ⟨hperm, hsort⟩ := h
  refine ⟨fun row => hperm.count_eq row, ?_, ?_⟩
  · intro a b hsub
    have hpw := List.Pairwise.sublist hsub hsort
    exact List.rel_of_pairwise_cons hpw (List.mem_singleton.mpr rfl)
  · intro hnd
    have hsorted' : List.Sorted (fun a b : SummaryRow => a.mb_per_sec ≤ b.mb_per_sec)
        (stableSortBy rateLe (summaryRows results)) :=
      (stableSortBy_pairwise rateLe_total rateLe_trans (summaryRows results)).imp
        (fun h => of_decide_eq_true h)
    have hperm' : out.Perm (stableSortBy rateLe (summaryRows results)) :=
      hperm.trans (stableSortBy_perm rateLe (summaryRows results)).symm
    have hnd' : List.Pairwise (fun a b : SummaryRow => a.mb_per_sec ≠ b.mb_per_sec) out :=
      (hperm.pairwise_iff (fun h => h.symm)).mpr hnd
    exact sorted_perm_eq_of_nodup_keys hperm' hsort hsorted' hnd'

/-- C1 (counterexample): on eighteen records with equal `mb_per_sec`, the permitted (and
actually produced) output `out18` — numpy's introsort order for 18 equal keys — reverses
the input order of the records named L01 and L15, so the claimed stability is false. -/
theorem claim_C1_counterexample :
    ¬ (∀ out : List SummaryRow, SummaryOutcome results18 out →
        ∀ a b : SummaryRow, a.mb_per_sec = b.mb_per_sec →
          [a, b].Sublist (summaryRows results18) → [a, b].Sublist out) := by
  intro hclaim
  have houtcome : SummaryOutcome results18 out18 :=
    ⟨List.Perm.map summaryRow (by decide), by decide⟩
  have hsubRaw : [rateFiveRec "L01", rateFiveRec "L15"].Sublist results18 := by decide
  have hsub := hclaim out18 houtcome
    (summaryRow (rateFiveRec "L01")) (summaryRow (rateFiveRec "L15"))
    rfl (List.Sublist.map summaryRow hsubRaw)
  have hnames : (["L01", "L15"] : List String).Sublist
      (out18.map (fun q => q.load_name)) :=
    hsub.map (fun q : SummaryRow => q.load_name)
  exact absurd hnames (by decide)

/-- C1 (witness): a concrete outcome for a single record satisfies the sort contract,
and the amended theorem applies to it. -/
theorem claim_C1_witness :
    SummaryOutcome [rateFiveRec "A"] (summaryRows [rateFiveRec "A"]) ∧
    ∀ row : SummaryRow,
      (summaryRows [rateFiveRec "A"]).count row =
        (summaryRows [rateFiveRec "A"]).count row := by
  have houtcome : SummaryOutcome [rateFiveRec "A"] (summaryRows [rateFiveRec "A"]) :=
    ⟨List.Perm.refl _, List.sorted_singleton _⟩
  exact ⟨houtcome, (claim_C1_sorted_not_stable [rateFiveRec "A"] _ houtcome).1⟩

/-- C4: in every summary row, `mb_per_sec_actual` is `bytes_per_sec / 1048576` exactly
(over `ℚ`), and the three latency columns are the record's `p50/p90/p99_seconds`
(defaulted to 0 when the path is absent) times 1000. -/
theorem claim_C4_unit_conversions (results : List RawResult) (out : List SummaryRow)
    (h : SummaryOutcome results out) :
    ∀ row ∈ out,
      row.mb_per_sec_actual = row.bytes_per_sec / 1048576 ∧
      ∃ r ∈ results, row = summaryRow r ∧
        row.p50_ms = (srcP50Seconds r).getD 0 * 1000 ∧
        row.p90_ms = (srcP90Seconds r).getD 0 * 1000 ∧
        row.p99_ms = (srcP99Seconds r).getD 0 * 1000 := by
  intro row hrow
  have hmem : row ∈ summaryRows results := h.1.mem_iff.mp hrow
  obtain ⟨r, hr, rfl⟩ := List.mem_map.mp hmem
  exact ⟨summaryRow_actual r, r, hr, rfl, summaryRow_p50 r, summaryRow_p90 r,
    summaryRow_p99 r⟩

/-- C4 (witness): the unit-conversion equations hold on a concrete one-record outcome. -/
theorem claim_C4_witness :
    SummaryOutcome [rateFiveRec "A"] (summaryRows [rateFiveRec "A"]) ∧
    ∀ row ∈ summaryRows [rateFiveRec "A"],
      row.mb_per_sec_actual = row.bytes_per_sec / 1048576 ∧
      ∃ r ∈ [rateFiveRec "A"], row = summaryRow r ∧
        row.p50_ms = (srcP50Seconds r).getD 0 * 1000 ∧
        row.p90_ms = (srcP90Seconds r).getD 0 * 1000 ∧
        row.p99_ms = (srcP99Seconds r).getD 0 * 1000 := by
  have houtcome : SummaryOutcome [rateFiveRec "A"] (summaryRows [rateFiveRec "A"]) :=
    ⟨List.Perm.refl _, List.sorted_singleton _⟩
  exact ⟨houtcome, claim_C4_unit_conversions [rateFiveRec "A"] _ houtcome⟩

/-- C5: the Summary Table Builder emits exactly one row per loaded record (none is
rejected), every numeric column falls back to 0 when its source path is absent, and a
record with no `metrics` object at all yields a row whose ten metrics-derived columns
are all 0. -/
theorem claim_C5_defaults (results : List RawResult) (out : List SummaryRow)
    (h : SummaryOutcome results out) :
    out.length = results.length ∧
    (∀ r ∈ results,
      (srcMbPerSec r = none → (summaryRow r).mb_per_sec = 0) ∧
      (srcBytesPerSecond r = none →
        (summaryRow r).bytes_per_sec = 0 ∧ (summaryRow r).mb_per_sec_actual = 0) ∧
      (srcP50Seconds r = none → (summaryRow r).p50_ms = 0) ∧
      (srcP90Seconds r = none → (summaryRow r).p90_ms = 0) ∧
      (srcP99Seconds r = none → (summaryRow r).p99_ms = 0) ∧
      (srcAvgCpuCores r = none → (summaryRow r).cpu_cores = 0) ∧
      (srcMaxMemoryGb r = none → (summaryRow r).memory_gb = 0) ∧
      (srcSpansPerSecond r = none → (summaryRow r).spans_per_sec = 0) ∧
      (srcErrorRatePercent r = none → (summaryRow r).error_rate = 0) ∧
      (srcDroppedSpans r = none → (summaryRow r).dropped_spans = 0)) ∧
    (∀ r ∈ results, r.metrics = none →
      (summaryRow r).mb_per_sec_actual = 0 ∧ (summaryRow r).bytes_per_sec = 0 ∧
      (summaryRow r).p50_ms = 0 ∧ (summaryRow r).p90_ms = 0 ∧ (summaryRow r).p99_ms = 0 ∧
      (summaryRow r).cpu_cores = 0 ∧ (summaryRow r).memory_gb = 0 ∧
      (summaryRow r).spans_per_sec = 0 ∧ (summaryRow r).error_rate = 0 ∧
      (summaryRow r).dropped_spans = 0) := by
  have hbytes0 : ∀ r : RawResult, srcBytesPerSecond r = none →
      (summaryRow r).bytes_per_sec = 0 ∧ (summaryRow r).mb_per_sec_actual = 0 := by
    intro r hsrc
    have hb : (summaryRow r).bytes_per_sec = 0 := by rw [summaryRow_bytes, hsrc]; rfl
    refine ⟨hb, ?_⟩
    rw [summaryRow_actual, hb]
    exact zero_div 1048576
  have hfields : ∀ r : RawResult,
      (srcMbPerSec r = none → (summaryRow r).mb_per_sec = 0) ∧
      (srcBytesPerSecond r = none →
        (summaryRow r).bytes_per_sec = 0 ∧ (summaryRow r).mb_per_sec_actual = 0) ∧
      (srcP50Seconds r = none → (summaryRow r).p50_ms = 0) ∧
      (srcP90Seconds r = none → (summaryRow r).p90_ms = 0) ∧
      (srcP99Seconds r = none → (summaryRow r).p99_ms = 0) ∧
      (srcAvgCpuCores r = none → (summaryRow r).cpu_cores = 0) ∧
      (srcMaxMemoryGb r = none → (summaryRow r).memory_gb = 0) ∧
      (srcSpansPerSecond r = none → (summaryRow r).spans_per_sec = 0) ∧
      (srcErrorRatePercent r = none → (summaryRow r).error_rate = 0) ∧
      (srcDroppedSpans r = none → (summaryRow r).dropped_spans = 0) := by
    intro r
    refine ⟨?_, hbytes0 r, ?_, ?_, ?_, ?_, ?_, ?_, ?_, ?_⟩
    · intro hsrc; rw [summaryRow_mb, hsrc]; rfl
    · intro hsrc; rw [summaryRow_p50, hsrc]; exact zero_mul 1000
    · intro hsrc; rw [summaryRow_p90, hsrc]; exact zero_mul 1000
    · intro hsrc; rw [summaryRow_p99, hsrc]; exact zero_mul 1000
    · intro hsrc; rw [summaryRow_cpu, hsrc]; rfl
    · intro hsrc; rw [summaryRow_mem, hsrc]; rfl
    · intro hsrc; rw [summaryRow_spans, hsrc]; rfl
    · intro hsrc; rw [summaryRow_error_rate, hsrc]; rfl
    · intro hsrc; rw [summaryRow_dropped, hsrc]; rfl
  refine ⟨?_, fun r _ => hfields r, ?_⟩
  · rw [h.1.length_eq]
    exact List.length_map results summaryRow
  · intro r _ hm
    have hf := hfields r
    have hsrcb : srcBytesPerSecond r = none := by simp [srcBytesPerSecond, hm]
    obtain ⟨hb, ha⟩ := hf.2.1 hsrcb
    exact ⟨ha, hb,
      hf.2.2.1 (by simp [srcP50Seconds, hm]),
      hf.2.2.2.1 (by simp [srcP90Seconds, hm]),
      hf.2.2.2.2.1 (by simp [srcP99Seconds, hm]),
      hf.2.2.2.2.2.1 (by simp [srcAvgCpuCores, hm]),
      hf.2.2.2.2.2.2.1 (by simp [srcMaxMemoryGb, hm]),
      hf.2.2.2.2.2.2.2.1 (by simp [srcSpansPerSecond, hm]),
      hf.2.2.2.2.2.2.2.2.1 (by simp [srcErrorRatePercent, hm]),
      hf.2.2.2.2.2.2.2.2.2 (by simp [srcDroppedSpans, hm])⟩

/-- C5 (witness): one metrics-free record yields exactly one all-zero row. -/
theorem claim_C5_witness :
    SummaryOutcome [rateFiveRec "A"] (summaryRows [rateFiveRec "A"]) ∧
    (summaryRows [rateFiveRec "A"]).length = [rateFiveRec "A"].length := by
  have houtcome : SummaryOutcome [rateFiveRec "A"] (summaryRows [rateFiveRec "A"]) :=
    ⟨List.Perm.refl _, List.sorted_singleton _⟩
  exact ⟨houtcome, (claim_C5_defaults [rateFiveRec "A"] _ houtcome).1⟩

theorem fileNameLe_total : ∀ x y : RawFile, fileNameLe x y = true ∨ fileNameLe y x = true := by
  intro x y
  rcases le_total x.name y.name with h | h
  · exact Or.inl ((pyStrLe_iff x.name y.name).mpr h)
  · exact Or.inr ((pyStrLe_iff y.name x.name).mpr h)

theorem fileNameLe_trans : ∀ x y z : RawFile,
    fileNameLe x y = true → fileNameLe y z = true → fileNameLe x z = true := by
  intro x y z h1 h2
  exact (pyStrLe_iff x.name z.name).mpr
    (le_trans ((pyStrLe_iff x.name y.name).mp h1) ((pyStrLe_iff y.name z.name).mp h2))

theorem load_some_eq (files : List RawFile) :
    load_test_results (some files) =
      (if ((stableSortBy fileNameLe files).filterMap (fun f => f.parsed)).isEmpty = true
       then Except.error LoadError.noValidResults
       else Except.ok ((stableSortBy fileNameLe files).filterMap (fun f => f.parsed))) := rfl

/-- C6: the loader exits fatally exactly when the `raw/` directory is missing or no file
parses; otherwise it returns, in filename-sorted order, exactly the records of the files
whose parse succeeded (a single malformed file is excluded and the rest kept). -/
theorem claim_C6_loader (rawDir : Option (List RawFile)) :
    ((∃ e, load_test_results rawDir = .error e) ↔
      (rawDir = none ∨ ∃ files, rawDir = some files ∧ ∀ f ∈ files, f.parsed = none)) ∧
    (∀ files l, rawDir = some files → load_test_results rawDir = .ok l →
      ∃ fs : List RawFile, fs.Perm files ∧
        (fs.map (fun f => f.name)).Sorted (fun a b : String => a ≤ b) ∧
        l = fs.filterMap (fun f => f.parsed)) := by
  constructor
  · constructor
    · rintro ⟨e, he⟩
      cases rawDir with
      | none => exact Or.inl rfl
      | some files =>
        refine Or.inr ⟨files, rfl, fun f hf => ?_⟩
        by_cases hemp : (stableSortBy fileNameLe files).filterMap (fun g => g.parsed) = []
        · exact List.filterMap_eq_nil.mp hemp f
            ((stableSortBy_perm fileNameLe files).mem_iff.mpr hf)
        · rw [load_some_eq files,
            if_neg (by simpa [List.isEmpty_iff] using hemp)] at he
          cases he
    · rintro (rfl | ⟨files, rfl, hall⟩)
      · exact ⟨.missingRawDir, rfl⟩
      · refine ⟨.noValidResults, ?_⟩
        have hemp : (stableSortBy fileNameLe files).filterMap (fun g => g.parsed) = [] :=
          List.filterMap_eq_nil.mpr
            (fun f hf => hall f ((stableSortBy_perm fileNameLe files).mem_iff.mp hf))
        rw [load_some_eq files, if_pos (by simp [hemp])]
  · intro files l hdir hok
    subst hdir
    refine ⟨stableSortBy fileNameLe files, stableSortBy_perm fileNameLe files, ?_, ?_⟩
    · have hp := stableSortBy_pairwise fileNameLe_total fileNameLe_trans files
      rw [List.Sorted, List.pairwise_map]
      exact hp.imp (fun h => (pyStrLe_iff _ _).mp h)
    · by_cases hemp : (stableSortBy fileNameLe files).filterMap (fun g => g.parsed) = []
      · rw [load_some_eq files, if_pos (by simp [hemp])] at hok
        cases hok
      · rw [load_some_eq files,
          if_neg (by simpa [List.isEmpty_iff] using hemp)] at hok
        exact (Except.ok.inj hok).symm

/-- C6 (witness): with one well-formed and one malformed file, only the malformed one is
excluded and the result follows filename order. -/
theorem claim_C6_witness :
    load_test_results (some [⟨"b.json", some (rateFiveRec "A")⟩, ⟨"a.json", none⟩]) =
      .ok [rateFiveRec "A"] ∧
    ∃ fs : List RawFile, fs.Perm [⟨"b.json", some (rateFiveRec "A")⟩, ⟨"a.json", none⟩] ∧
      (fs.map (fun f => f.name)).Sorted (fun a b : String => a ≤ b) ∧
      [rateFiveRec "A"] = fs.filterMap (fun f => f.parsed) :=
  ⟨by decide,
   (claim_C6_loader (some [⟨"b.json", some (rateFiveRec "A")⟩, ⟨"a.json", none⟩])).2
     [⟨"b.json", some (rateFiveRec "A")⟩, ⟨"a.json", none⟩] [rateFiveRec "A"]
     rfl (by decide)⟩

theorem fileNameGe_total : ∀ x y : ReportFile,
    fileNameGe x y = true ∨ fileNameGe y x = true := by
  intro x y
  rcases le_total y.name x.name with h | h
  · exact Or.inl ((pyStrLe_iff y.name x.name).mpr h)
  · exact Or.inr ((pyStrLe_iff x.name y.name).mpr h)

theorem fileNameGe_trans : ∀ x y z : ReportFile,
    fileNameGe x y = true → fileNameGe y z = true → fileNameGe x z = true := by
  intro x y z h1 h2
  exact (pyStrLe_iff z.name x.name).mpr
    (le_trans ((pyStrLe_iff z.name y.name).mp h2) ((pyStrLe_iff y.name x.name).mp h1))

theorem pySplitChar_head (sep : Char) :
    ∀ l : List Char, ∃ t, pySplitChar sep l = (l.takeWhile (fun c => c != sep)) :: t := by
  intro l
  induction l with
  | nil => exact ⟨[], rfl⟩
  | cons c rest ih =>
    by_cases hc : c = sep
    · refine ⟨pySplitChar sep rest, ?_⟩
      have hpred : (c != sep) = false := by simp [hc]
      simp [pySplitChar, hc, List.takeWhile, hpred]
    · obtain ⟨t, ht⟩ := ih
      refine ⟨t, ?_⟩
      have hpred : (c != sep) = true := by simp [hc]
      simp only [pySplitChar, if_neg hc, ht, List.takeWhile, hpred]

/-- C8: the Metadata Resolver selects the file that is greatest by filename (it reads
that one's metadata, and a parse failure degrades to empty metadata rather than an
error); the label is the cluster name's prefix before the first `/` when the cluster
name is a non-empty string, else a label from the first 10 characters of `generated_at`
when that is non-empty, else the fixed default label. -/
theorem claim_C8_metadata (reportFiles : List ReportFile) :
    (reportFiles ≠ [] →
      ∃ f ∈ reportFiles, (∀ g ∈ reportFiles, g.name ≤ f.name) ∧
        load_report_metadata reportFiles = reportMetadataOf f) ∧
    (∀ f : ReportFile, f.parsed = none → reportMetadataOf f = ReportMetadata.empty) ∧
    (∀ md : ReportMetadata, ∀ s : String, clusterNameOf md = s → s ≠ "" →
      get_report_name md = String.mk (s.data.takeWhile (fun c => c != '/'))) ∧
    (∀ md : ReportMetadata, clusterNameOf md = "" → generatedAtOf md ≠ "" →
      get_report_name md = "Report " ++ (generatedAtOf md).take 10) ∧
    (∀ md : ReportMetadata, clusterNameOf md = "" → generatedAtOf md = "" →
      get_report_name md = "Tempo Performance Test") := by
  refine ⟨?_, ?_, ?_, ?_, ?_⟩
  · intro hne
    cases hsorted : stableSortBy fileNameGe reportFiles with
    | nil =>
      have hperm := stableSortBy_perm fileNameGe reportFiles
      rw [hsorted] at hperm
      exact absurd hperm.symm.eq_nil hne
    | cons f rest =>
      have hmemf : f ∈ reportFiles :=
        (stableSortBy_perm fileNameGe reportFiles).mem_iff.mp
          (hsorted ▸ List.mem_cons_self f rest)
      refine ⟨f, hmemf, ?_, ?_⟩
      · intro g hg
        have hgmem : g ∈ f :: rest :=
          hsorted ▸ (stableSortBy_perm fileNameGe reportFiles).mem_iff.mpr hg
        rcases List.mem_cons.mp hgmem with rfl | hgrest
        · exact le_refl g.name
        · have hp := stableSortBy_pairwise fileNameGe_total fileNameGe_trans reportFiles
          rw [hsorted] at hp
          exact (pyStrLe_iff g.name f.name).mp (List.rel_of_pairwise_cons hp hgrest)
      · rw [load_report_metadata, hsorted]
        rfl
  · intro f hf
    rw [reportMetadataOf, hf]
  · intro md s hs hne
    obtain ⟨t, ht⟩ := pySplitChar_head '/' s.data
    rw [get_report_name]
    rw [show (md.cluster.getD ClusterInfo.empty).name.getD "" = clusterNameOf md from rfl,
      hs, if_pos hne, pySplit, ht]
    rfl
  · intro md hcl hga
    rw [get_report_name]
    rw [show (md.cluster.getD ClusterInfo.empty).name.getD "" = clusterNameOf md from rfl,
      hcl, if_neg (by simp), show md.generated_at.getD "" = generatedAtOf md from rfl,
      if_pos hga]
  · intro md hcl hga
    rw [get_report_name]
    rw [show (md.cluster.getD ClusterInfo.empty).name.getD "" = clusterNameOf md from rfl,
      hcl, if_neg (by simp), show md.generated_at.getD "" = generatedAtOf md from rfl,
      hga, if_neg (by simp)]

/-- C8 (witness): the greatest-named file is selected, an unparsable selected file
degrades to empty metadata, and a cluster name with a separator is truncated at it. -/
theorem claim_C8_witness :
    (reportFilesW ≠ [] ∧
      ∃ f ∈ reportFilesW, (∀ g ∈ reportFilesW, g.name ≤ f.name) ∧
        load_report_metadata reportFilesW = reportMetadataOf f) ∧
    (clusterNameOf mdW = "tempo-perf/c1" ∧
      get_report_name mdW = String.mk ("tempo-perf/c1".data.takeWhile (fun c => c != '/'))) := by
  refine ⟨⟨by decide, (claim_C8_metadata reportFilesW).1 (by decide)⟩, rfl, ?_⟩
  exact (claim_C8_metadata reportFilesW).2.2.1 mdW "tempo-perf/c1" rfl (by decide)

/-- C2: in a successful extraction, every point's `minute` is
`(timestamp − min-timestamp-of-its-load) / 60 + 1` (integer floor division, over that
load's own rows); a point whose timestamp is minimal for its load has `minute = 1` (and
every non-empty load has such a point); and within one load `minute` is monotone in
`timestamp`. -/
theorem claim_C2_minutes (results : List RawResult) (pts : List TimeSeriesPoint)
    (h : extract_timeseries_data results = .ok pts) :
    (∀ p ∈ pts, p.minute = (p.timestamp - minTsForPoints pts p.load_name) / 60 + 1) ∧
    (∀ p ∈ pts, (∀ q ∈ pts, q.load_name = p.load_name → p.timestamp ≤ q.timestamp) →
      p.minute = 1) ∧
    (∀ p ∈ pts, ∀ q ∈ pts, p.load_name = q.load_name → p.timestamp < q.timestamp →
      p.minute ≤ q.minute) ∧
    (∀ load : String, (∃ p ∈ pts, p.load_name = load) →
      ∃ p ∈ pts, p.load_name = load ∧ p.minute = 1) := by
  obtain ⟨base, hfold, hpts⟩ := extract_ok_inv h
  subst hpts
  have hformula : ∀ p ∈ addMinutes (stableSortBy rowLe base),
      p.minute = (p.timestamp -
        minTsForPoints (addMinutes (stableSortBy rowLe base)) p.load_name) / 60 + 1 := by
    intro p hp
    obtain ⟨q, _, htw, hmin⟩ := mem_addMinutes hp
    rw [minTsForPoints_addMinutes, hmin, ← htw]
  have hkey : ∀ p ∈ addMinutes (stableSortBy rowLe base),
      (∀ q ∈ addMinutes (stableSortBy rowLe base),
        q.load_name = p.load_name → p.timestamp ≤ q.timestamp) →
      minTsForPoints (addMinutes (stableSortBy rowLe base)) p.load_name = p.timestamp := by
    intro p hp hmin
    have hpL : p.timestamp ∈
        ((addMinutes (stableSortBy rowLe base)).filter
          (fun q => q.load_name == p.load_name)).map (fun q => q.timestamp) :=
      List.mem_map.mpr ⟨p, List.mem_filter.mpr ⟨hp, beq_self_eq_true _⟩, rfl⟩
    have hm := listMinD_mem (List.ne_nil_of_mem hpL)
    obtain ⟨q, hqf, hqts⟩ := List.mem_map.mp hm
    obtain ⟨hqmem, hqload⟩ := List.mem_filter.mp hqf
    refine le_antisymm (listMinD_le hpL) ?_
    have h2 : p.timestamp ≤ q.timestamp := hmin q hqmem (beq_iff_eq.mp hqload)
    rw [hqts] at h2
    exact h2
  have hminute1 : ∀ p ∈ addMinutes (stableSortBy rowLe base),
      (∀ q ∈ addMinutes (stableSortBy rowLe base),
        q.load_name = p.load_name → p.timestamp ≤ q.timestamp) →
      p.minute = 1 := by
    intro p hp hmin
    rw [hformula p hp, hkey p hp hmin]
    simp
  refine ⟨hformula, hminute1, ?_, ?_⟩
  · intro p hp q hq hload hlt
    rw [hformula p hp, hformula q hq, ← hload]
    have hsub : p.timestamp -
        minTsForPoints (addMinutes (stableSortBy rowLe base)) p.load_name ≤
        q.timestamp - minTsForPoints (addMinutes (stableSortBy rowLe base)) p.load_name :=
      sub_le_sub_right (le_of_lt hlt) _
    exact add_le_add_right (Int.ediv_le_ediv (by norm_num) hsub) 1
  · rintro load ⟨p0, hp0, hl0⟩
    have hp0L : p0.timestamp ∈
        ((addMinutes (stableSortBy rowLe base)).filter
          (fun q => q.load_name == load)).map (fun q => q.timestamp) :=
      List.mem_map.mpr ⟨p0, List.mem_filter.mpr ⟨hp0, by rw [hl0]; exact beq_self_eq_true load⟩,
        rfl⟩
    have hm := listMinD_mem (List.ne_nil_of_mem hp0L)
    obtain ⟨q, hqf, hqts⟩ := List.mem_map.mp hm
    obtain ⟨hqmem, hqload⟩ := List.mem_filter.mp hqf
    have hqload' : q.load_name = load := beq_iff_eq.mp hqload
    refine ⟨q, hqmem, hqload', ?_⟩
    refine hminute1 q hqmem (fun x hx hxl => ?_)
    have hxbeq : (x.load_name == load) = true := by
      rw [hxl, hqload']
      exact beq_self_eq_true load
    have hxL : x.timestamp ∈
        ((addMinutes (stableSortBy rowLe base)).filter
          (fun y => y.load_name == load)).map (fun y => y.timestamp) :=
      List.mem_map.mpr ⟨x, List.mem_filter.mpr ⟨hx, hxbeq⟩, rfl⟩
    rw [hqts]
    exact listMinD_le hxL

/-- C2 (witness): on a concrete two-sample load the minute formula holds of the actual
output. -/
theorem claim_C2_witness :
    extract_timeseries_data [recW] = .ok ptsW ∧
    ∀ p ∈ ptsW, p.minute = (p.timestamp - minTsForPoints ptsW p.load_name) / 60 + 1 := by
  have hok : extract_timeseries_data [recW] = .ok ptsW :=
    except_eq_ok_of_isOk _ [] (by decide)
  exact ⟨hok, (claim_C2_minutes [recW] ptsW hok).1⟩

/-- C3: a record skipped by the guard (absent/empty `timeseries` or absent/empty
`cpu_cores`) contributes `.ok []` — zero rows, no error; an unskipped well-formed record
contributes exactly one row per distinct timestamp of its `cpu_cores` stream, each row
carrying, for every tracked stream, the stream's (last) value at the row's timestamp or
0 when the stream has no sample there; and a successful batch has exactly the sum of the
per-record contributions. -/
theorem claim_C3_reference_stream (r : RawResult) :
    (skipsTimeseries r = true → recordRows r = .ok []) ∧
    (skipsTimeseries r = false → recordWF r = true →
      ∃ l, recordRows r = .ok l ∧
        (l.map (fun q => q.timestamp)).Nodup ∧
        (∀ t : ℤ, t ∈ l.map (fun q => q.timestamp) ↔
          (some t) ∈ (cpuStream r).map (fun s => s.timestamp)) ∧
        (∀ q ∈ l, q.load_name = r.load_name.getD "unknown" ∧
          q.cpu_cores = valueAtD (cpuStream r) q.timestamp ∧
          q.memory_gb = valueAtD (memStream r) q.timestamp ∧
          q.spans_per_sec = valueAtD (spansStream r) q.timestamp ∧
          q.bytes_per_sec = valueAtD (bytesStream r) q.timestamp ∧
          q.p50_ms = valueAtD (p50Stream r) q.timestamp * 1000 ∧
          q.p90_ms = valueAtD (p90Stream r) q.timestamp * 1000 ∧
          q.p99_ms = valueAtD (p99Stream r) q.timestamp * 1000 ∧
          q.query_failures = valueAtD (failsStream r) q.timestamp ∧
          q.dropped_spans = valueAtD (droppedStream r) q.timestamp)) ∧
    (∀ results pts, extract_timeseries_data results = .ok pts →
      pts.length = (results.map contribLen).sum) := by
  refine ⟨fun h => recordRows_skip h, fun hskip hwf => recordRows_ok_char r hskip hwf, ?_⟩
  intro results pts h
  obtain ⟨base, hfold, hpts⟩ := extract_ok_inv h
  subst hpts
  have hbase := foldAppend_ok results [] base hfold
  rw [show addMinutes (stableSortBy rowLe base) =
      (stableSortBy rowLe base).map (fun q =>
        ({ toTSRow := q,
           minute := (q.timestamp -
             minTsFor (stableSortBy rowLe base) q.load_name) / 60 + 1 } :
          TimeSeriesPoint)) from rfl]
  rw [List.length_map, (stableSortBy_perm rowLe base).length_eq, hbase]
  rw [List.nil_append, List.length_flatten, List.map_map]
  rfl

/-- C3 (witness): the guard and contribution behaviors hold at concrete records. -/
theorem claim_C3_witness :
    (skipsTimeseries (rateFiveRec "A") = true ∧
      recordRows (rateFiveRec "A") = .ok []) ∧
    (skipsTimeseries recW = false ∧ recordWF recW = true ∧
      ∃ l, recordRows recW = .ok l) ∧
    (extract_timeseries_data [recW] = .ok ptsW ∧
      ptsW.length = ([recW].map contribLen).sum) := by
  refine ⟨⟨by decide, (claim_C3_reference_stream (rateFiveRec "A")).1 (by decide)⟩, ?_, ?_⟩
  · refine ⟨by decide, by decide, ?_⟩
    obtain ⟨l, hl, _⟩ := (claim_C3_reference_stream recW).2.1 (by decide) (by decide)
    exact ⟨l, hl⟩
  · have hok : extract_timeseries_data [recW] = .ok ptsW :=
      except_eq_ok_of_isOk _ [] (by decide)
    exact ⟨hok, (claim_C3_reference_stream recW).2.2 [recW] ptsW hok⟩

/-- C7: the timestamp → value mapping the Aligner builds for a stream retains, for each
timestamp, the value of the last sample with that timestamp in input order (last write
wins), whatever default the lookup is given. -/
theorem claim_C7_last_write_wins (stream : List Sample) (d : TsDict)
    (hd : buildDict stream = .ok d) (t : ℤ) (v : ℚ)
    (hv : lastValueAt stream t = some v) :
    ∀ dflt : ℚ, dictGet d t dflt = v := by
  intro dflt
  rw [buildDict_get hd t dflt, hv]

/-- C7 (witness): with two samples sharing timestamp 100, the second value (2) wins. -/
theorem claim_C7_witness :
    buildDict [⟨some 100, some 1⟩, ⟨some 100, some 2⟩] = .ok [((100 : ℤ), (2 : ℚ))] ∧
    lastValueAt [⟨some 100, some 1⟩, ⟨some 100, some 2⟩] 100 = some 2 ∧
    dictGet [((100 : ℤ), (2 : ℚ))] 100 0 = 2 :=
  ⟨by decide, by decide,
    claim_C7_last_write_wins [⟨some 100, some 1⟩, ⟨some 100, some 2⟩]
      [((100 : ℤ), (2 : ℚ))] (by decide) 100 2 (by decide) 0⟩

/-- C9: for a record that passes the guard (non-empty `cpu_cores` stream), a sample
lacking a `timestamp` or `value` key in any of the nine tracked streams makes the
extraction of that record raise (`KeyError`), and the whole batch then fails instead of
defaulting or skipping that sample. -/
theorem claim_C9_keyerror (r : RawResult) (hskip : skipsTimeseries r = false)
    (hmal : recordWF r = false) :
    recordRows r = .error () ∧
    ∀ results pts, r ∈ results → extract_timeseries_data results ≠ .ok pts := by
  have herr := recordRows_error_of_malformed hskip hmal
  refine ⟨herr, fun results pts hmem hok => ?_⟩
  rw [extract_error_of_mem hmem herr] at hok
  cases hok

/-- C9 (witness): `recBad` (cpu stream present, one memory sample lacking `value`)
aborts both its own extraction and the batch. -/
theorem claim_C9_witness :
    skipsTimeseries recBad = false ∧ recordWF recBad = false ∧
    recordRows recBad = .error () ∧
    extract_timeseries_data [recBad] ≠ .ok [] := by
  refine ⟨by decide, by decide,
    (claim_C9_keyerror recBad (by decide) (by decide)).1,
    (claim_C9_keyerror recBad (by decide) (by decide)).2 [recBad] []
      (List.mem_singleton.mpr rfl)⟩

/-- C10: in every aligned point the three latency fields are 1000 times the matching
latency-stream sample at the reference timestamp (0 when absent), all other metric
fields carry their sample values unconverted, and a missing `load_name` becomes the
string "unknown" in both the summary row and the aligned points. -/
theorem claim_C10_point_fields (r : RawResult) :
    ((summaryRow r).load_name = r.load_name.getD "unknown") ∧
    (r.load_name = none → (summaryRow r).load_name = "unknown") ∧
    (skipsTimeseries r = false → recordWF r = true →
      ∃ l, recordRows r = .ok l ∧ ∀ q ∈ l,
        q.load_name = r.load_name.getD "unknown" ∧
        (r.load_name = none → q.load_name = "unknown") ∧
        (∀ v, lastValueAt (p50Stream r) q.timestamp = some v → q.p50_ms = v * 1000) ∧
        (lastValueAt (p50Stream r) q.timestamp = none → q.p50_ms = 0) ∧
        (∀ v, lastValueAt (p90Stream r) q.timestamp = some v → q.p90_ms = v * 1000) ∧
        (lastValueAt (p90Stream r) q.timestamp = none → q.p90_ms = 0) ∧
        (∀ v, lastValueAt (p99Stream r) q.timestamp = some v → q.p99_ms = v * 1000) ∧
        (lastValueAt (p99Stream r) q.timestamp = none → q.p99_ms = 0) ∧
        (∀ v, lastValueAt (cpuStream r) q.timestamp = some v → q.cpu_cores = v) ∧
        (∀ v, lastValueAt (memStream r) q.timestamp = some v → q.memory_gb = v) ∧
        (∀ v, lastValueAt (spansStream r) q.timestamp = some v → q.spans_per_sec = v) ∧
        (∀ v, lastValueAt (bytesStream r) q.timestamp = some v → q.bytes_per_sec = v) ∧
        (∀ v, lastValueAt (failsStream r) q.timestamp = some v → q.query_failures = v) ∧
        (∀ v, lastValueAt (droppedStream r) q.timestamp = some v → q.dropped_spans = v)) := by
  refine ⟨rfl, ?_, ?_⟩
  · intro hln
    rw [summaryRow_load_name, hln]
    rfl
  · intro hskip hwf
    obtain ⟨l, hl, _, _, hfields⟩ := recordRows_ok_char r hskip hwf
    refine ⟨l, hl, fun q hq => ?_⟩
    obtain ⟨hname, hcpu, hmem, hspans, hbytes, hp50, hp90, hp99, hfails, hdropped⟩ :=
      hfields q hq
    refine ⟨hname, ?_, ?_, ?_, ?_, ?_, ?_, ?_, ?_, ?_, ?_, ?_, ?_, ?_⟩
    · intro hln; rw [hname, hln]; rfl
    · intro v hv; rw [hp50, valueAtD, hv]; rfl
    · intro hv; rw [hp50, valueAtD, hv]; exact zero_mul 1000
    · intro v hv; rw [hp90, valueAtD, hv]; rfl
    · intro hv; rw [hp90, valueAtD, hv]; exact zero_mul 1000
    · intro v hv; rw [hp99, valueAtD, hv]; rfl
    · intro hv; rw [hp99, valueAtD, hv]; exact zero_mul 1000
    · intro v hv; rw [hcpu, valueAtD, hv]; rfl
    · intro v hv; rw [hmem, valueAtD, hv]; rfl
    · intro v hv; rw [hspans, valueAtD, hv]; rfl
    · intro v hv; rw [hbytes, valueAtD, hv]; rfl
    · intro v hv; rw [hfails, valueAtD, hv]; rfl
    · intro v hv; rw [hdropped, valueAtD, hv]; rfl

/-- C10 (witness): the load-name defaulting and millisecond conversion hold on a
concrete record. -/
theorem claim_C10_witness :
    skipsTimeseries recW = false ∧ recordWF recW = true ∧
    ∃ l, recordRows recW = .ok l := by
  refine ⟨by decide, by decide, ?_⟩
  obtain ⟨l, hl, _⟩ := (claim_C10_point_fields recW).2.2 (by decide) (by decide)
  exact ⟨l, hl⟩

end PerfCharts

